import Mathlib

/-!
Verification of the sqomega SQW v4 file reader/writer.

This file shallowly embeds the core of the `sqomega` Python package
(`src/sqomega/_low_level_io.py`, `_bytes.py`, `_ir.py`, `_read_write.py`,
`_build.py`, `_sqw.py`, `_models.py`) and proves properties of the embedded
definitions.  Machine integers are modelled as `Nat` with explicit reductions
modulo `2 ^ width` where the Python code truncates; byte buffers are
`List Nat` holding values below 256; Python `str` values on the wire are
modelled by their UTF-8 byte sequences (`Str` below); Python floats are
modelled by their IEEE-754 binary64 bit patterns; fallible Python code
returns `Except`.

A handful of `LowLevelSqw` helper methods (the write-side primitives, `seek`,
`read_u64`, `read_u8`, `read_n_chars`, `read_logical`) and two small helpers
(`Serializable.to_object_array`, the numeric `ir.Array` wrapper) are declared
or called by the sources but their definitions are not part of the given
source tree; those are modelled from the specification and marked
"Modelled from the spec" in their doc comments.
-/

namespace Sqomega

/-- The byte order enum from `src/sqomega/_bytes.py` (`Byteorder`). -/
inductive Byteorder where
  | little
  | big
deriving DecidableEq, Repr

/-- A Python `str` is modelled by its UTF-8 byte sequence. -/
abbrev Str := List Nat

/-- Python `int.from_bytes(bs, "little")`.  Defined for any length, including
buffers shorter than the caller asked for (a short read); the empty buffer
yields 0, exactly as in Python. -/
def intFromBytesLE (bs : List Nat) : Nat :=
  bs.foldr (fun b acc => b + 256 * acc) 0

/-- Python `int.from_bytes(bs, "big")`. -/
def intFromBytesBE (bs : List Nat) : Nat :=
  bs.foldl (fun acc b => 256 * acc + b) 0

/-- Python `int.from_bytes(bs, byteorder.get())`. -/
def intFromBytes (bo : Byteorder) (bs : List Nat) : Nat :=
  match bo with
  | .little => intFromBytesLE bs
  | .big => intFromBytesBE bs

/-- Fixed-width little-endian byte encoding of a natural number
(`int.to_bytes(width, "little")`); the value is reduced modulo `2 ^ (8 * width)`
(Python would raise `OverflowError` instead of wrapping; every value written by
this program is small enough that the two agree, and the theorems that depend
on it carry the corresponding bound as a hypothesis). -/
def intToBytesLE : Nat → Nat → List Nat
  | 0, _ => []
  | w + 1, n => n % 256 :: intToBytesLE w (n / 256)

/-- Fixed-width big-endian byte encoding (`int.to_bytes(width, "big")`). -/
def intToBytesBE (w n : Nat) : List Nat :=
  (intToBytesLE w n).reverse

/-- Fixed-width byte encoding in a chosen byte order. -/
def intToBytes (bo : Byteorder) (w n : Nat) : List Nat :=
  match bo with
  | .little => intToBytesLE w n
  | .big => intToBytesBE w n

theorem intToBytesLE_length (w n : Nat) : (intToBytesLE w n).length = w := by
  induction w generalizing n with
  | zero => rfl
  | succ w ih => simp [intToBytesLE, ih]

theorem intToBytes_length (bo : Byteorder) (w n : Nat) :
    (intToBytes bo w n).length = w := by
  cases bo <;> simp [intToBytes, intToBytesBE, intToBytesLE_length]

theorem intToBytesLE_four (n : Nat) :
    intToBytesLE 4 n =
      [n % 256, n / 256 % 256, n / 256 / 256 % 256, n / 256 / 256 / 256 % 256] :=
  rfl

theorem intToBytesLE_eight (n : Nat) :
    intToBytesLE 8 n =
      [n % 256, n / 256 % 256, n / 256 / 256 % 256, n / 256 / 256 / 256 % 256,
       n / 256 / 256 / 256 / 256 % 256, n / 256 / 256 / 256 / 256 / 256 % 256,
       n / 256 / 256 / 256 / 256 / 256 / 256 % 256,
       n / 256 / 256 / 256 / 256 / 256 / 256 / 256 % 256] :=
  rfl

theorem intFromBytes_intToBytes_u32 (bo : Byteorder) (n : Nat) :
    intFromBytes bo (intToBytes bo 4 n) = n % 2 ^ 32 := by
  cases bo <;>
    simp [intFromBytes, intToBytes, intToBytesBE, intToBytesLE_four,
      intFromBytesLE, intFromBytesBE] <;>
    omega

theorem intFromBytes_intToBytes_u64 (bo : Byteorder) (n : Nat) :
    intFromBytes bo (intToBytes bo 8 n) = n % 2 ^ 64 := by
  cases bo <;>
    simp [intFromBytes, intToBytes, intToBytesBE, intToBytesLE_eight,
      intFromBytesLE, intFromBytesBE] <;>
    omega

/-- A seekable in-memory binary source (`io.BytesIO` opened for reading, or an
opened file): the full byte contents plus the current position. -/
structure RStream where
  data : List Nat
  pos : Nat
deriving DecidableEq, Repr

/-- Python `file.read(n)`: return up to `n` bytes starting at the current
position and advance the position by the number of bytes actually returned
(fewer than `n` near the end of the stream). -/
def RStream.read (s : RStream) (n : Nat) : List Nat × RStream :=
  let buf := (s.data.drop s.pos).take n
  (buf, ⟨s.data, s.pos + buf.length⟩)

/-- Python `file.tell()`. -/
def RStream.tell (s : RStream) : Nat := s.pos

/-- Python `file.seek(n)`. -/
def RStream.seek (s : RStream) (n : Nat) : RStream := ⟨s.data, n⟩

/-- The byte-order guesser `_deduce_byteorder` from
`src/sqomega/_low_level_io.py` (lines 97-122): with an explicit byte order it
returns it unchanged; otherwise it reads the first four bytes, restores the
stream position, and picks the byte order whose `u32` interpretation of those
bytes is smaller, preferring big-endian when the interpretations are equal. -/
def deduceByteorder (file : RStream) (byteorder : Option Byteorder) :
    Byteorder × RStream :=
  match byteorder with
  | some bo => (bo, file)
  | none =>
    let pos := file.tell
    let r := file.read 4
    let file2 := r.2.seek pos
    let le_size := intFromBytesLE r.1
    let be_size := intFromBytesBE r.1
    if le_size < be_size then (Byteorder.little, file2) else (Byteorder.big, file2)

/-- C3: byte-order auto-detection reads the first four bytes without changing
the stream, interprets them as `u32` both ways and picks the smaller
interpretation (little-endian exactly when it is strictly smaller); an
explicitly supplied byte order is returned as-is with no detection performed
(the stream is untouched). -/
theorem deduceByteorder_detection (s : RStream) (bo : Byteorder) :
    (deduceByteorder s none).2 = s ∧
    (deduceByteorder s none).1 =
      (if intFromBytesLE ((s.data.drop s.pos).take 4) <
          intFromBytesBE ((s.data.drop s.pos).take 4)
       then Byteorder.little else Byteorder.big) ∧
    deduceByteorder s (some bo) = (bo, s) := by
  refine ⟨?_, ?_, rfl⟩ <;>
    simp only [deduceByteorder, RStream.read, RStream.seek, RStream.tell] <;>
    split <;> rfl

/-- C9: when the four leading bytes read the same `u32` value under both byte
orders, auto-detection returns big-endian; little-endian is returned exactly
when the little-endian interpretation is strictly smaller. -/
theorem deduceByteorder_tiebreak (s : RStream) :
    (intFromBytesLE ((s.data.drop s.pos).take 4) =
        intFromBytesBE ((s.data.drop s.pos).take 4) →
      (deduceByteorder s none).1 = Byteorder.big) ∧
    ((deduceByteorder s none).1 = Byteorder.little ↔
      intFromBytesLE ((s.data.drop s.pos).take 4) <
        intFromBytesBE ((s.data.drop s.pos).take 4)) := by
  constructor
  · intro h
    simp only [deduceByteorder, RStream.read, RStream.seek, RStream.tell, h,
      lt_self_iff_false, if_false]
  · simp only [deduceByteorder, RStream.read, RStream.seek, RStream.tell]
    split
    · simpa
    · simp_all

/-- Witness for C9 at a concrete palindromic stream: four zero bytes decode to
the same value both ways and detection returns big-endian. -/
theorem deduceByteorder_tiebreak_witness :
    (deduceByteorder ⟨[0, 0, 0, 0], 0⟩ none).1 = Byteorder.big :=
  (deduceByteorder_tiebreak ⟨[0, 0, 0, 0], 0⟩).1 (by decide)

/-- Continuation-byte test for UTF-8 (second and later bytes of a multi-byte
sequence). -/
def utf8IsCont (b : Nat) : Bool := 0x80 ≤ b && b ≤ 0xBF

/-- Strict UTF-8 validity of a byte sequence, as checked by Python's
`bytes.decode("utf-8")`: overlong encodings, surrogate code points and values
above U+10FFFF are rejected (RFC 3629). -/
def utf8Valid : List Nat → Bool
  | [] => true
  | b :: r =>
    if b ≤ 0x7F then utf8Valid r
    else if 0xC2 ≤ b ∧ b ≤ 0xDF then
      match r with
      | c1 :: r1 => utf8IsCont c1 && utf8Valid r1
      | [] => false
    else if b = 0xE0 then
      match r with
      | c1 :: c2 :: r2 =>
        (0xA0 ≤ c1 && c1 ≤ 0xBF) && utf8IsCont c2 && utf8Valid r2
      | _ => false
    else if (0xE1 ≤ b ∧ b ≤ 0xEC) ∨ b = 0xEE ∨ b = 0xEF then
      match r with
      | c1 :: c2 :: r2 => utf8IsCont c1 && utf8IsCont c2 && utf8Valid r2
      | _ => false
    else if b = 0xED then
      match r with
      | c1 :: c2 :: r2 =>
        (0x80 ≤ c1 && c1 ≤ 0x9F) && utf8IsCont c2 && utf8Valid r2
      | _ => false
    else if b = 0xF0 then
      match r with
      | c1 :: c2 :: c3 :: r3 =>
        (0x90 ≤ c1 && c1 ≤ 0xBF) && utf8IsCont c2 && utf8IsCont c3 && utf8Valid r3
      | _ => false
    else if 0xF1 ≤ b ∧ b ≤ 0xF3 then
      match r with
      | c1 :: c2 :: c3 :: r3 =>
        utf8IsCont c1 && utf8IsCont c2 && utf8IsCont c3 && utf8Valid r3
      | _ => false
    else if b = 0xF4 then
      match r with
      | c1 :: c2 :: c3 :: r3 =>
        (0x80 ≤ c1 && c1 ≤ 0x8F) && utf8IsCont c2 && utf8IsCont c3 && utf8Valid r3
      | _ => false
    else false

/-- Kinds of Python exceptions that the low-level readers can raise.
`UnicodeDecodeError` is a subclass of `ValueError` and is therefore caught and
annotated by `_annotate_read_exception`; `struct.error` derives directly from
`Exception` and is not. -/
inductive PyExcKind where
  | unicodeDecodeError
  | structError
  | valueError
  | typeError
  | indexError
  | fuelExhausted
deriving DecidableEq, Repr

/-- The note attached by `_add_note_to_read_exception`
(`src/sqomega/_low_level_io.py` lines 38-45): the kind of value being read,
the file description and the stream position at the time of the failure. -/
structure ReadExcNote where
  ty : String
  pathPiece : String
  position : Nat
deriving DecidableEq, Repr

/-- An exception escaping a `read_*` method: its kind plus the annotation
added by `_annotate_read_exception` (only for `ValueError` subclasses). -/
structure ReadExc where
  kind : PyExcKind
  note : Option ReadExcNote
deriving DecidableEq, Repr

/-- The low-level reader state (`LowLevelSqw` in `src/sqomega/_low_level_io.py`):
an open binary stream, the resolved byte order and the stored path (none for
in-memory sources). The path is kept as display text. -/
structure LowLevelSqw where
  file : RStream
  byteorder : Byteorder
  path : Option String
deriving DecidableEq, Repr

/-- The file description used in exception notes (`_add_note_to_read_exception`):
"in-memory SQW file" for path-less sources, otherwise the quoted path. -/
def LowLevelSqw.pathPiece (io : LowLevelSqw) : String :=
  match io.path with
  | none => "in-memory SQW file"
  | some p => "SQW file " ++ p

/-- Python `sqw_io.position` (`file.tell()`). -/
def LowLevelSqw.position (io : LowLevelSqw) : Nat := io.file.tell

/-- `LowLevelSqw.read_u32` (`src/sqomega/_low_level_io.py` lines 64-67):
read up to four bytes and convert with `int.from_bytes`.  A short read is not
detected — `int.from_bytes` accepts any buffer length — so this never fails. -/
def LowLevelSqw.read_u32 (io : LowLevelSqw) : Nat × LowLevelSqw :=
  let r := io.file.read 4
  (intFromBytes io.byteorder r.1, { io with file := r.2 })

/-- `LowLevelSqw.read_f64` (lines 69-77): `struct.unpack` demands exactly eight
bytes, so a short read raises `struct.error`, which `_annotate_read_exception`
does not catch (it is not a `ValueError`), hence no note.  The result is the
IEEE-754 binary64 bit pattern of the value read. -/
def LowLevelSqw.read_f64 (io : LowLevelSqw) : Except ReadExc (Nat × LowLevelSqw) :=
  let r := io.file.read 8
  if r.1.length = 8 then .ok (intFromBytes io.byteorder r.1, { io with file := r.2 })
  else .error ⟨.structError, none⟩

/-- `LowLevelSqw.read_char_array` (lines 79-82): read a `u32` length, then that
many bytes, and decode as UTF-8.  Malformed UTF-8 raises `UnicodeDecodeError`
(a `ValueError`), which the `_annotate_read_exception` decorator annotates with
the file description and the stream position at the time of the failure.
The decoded string is represented by its UTF-8 bytes. -/
def LowLevelSqw.read_char_array (io : LowLevelSqw) : Except ReadExc (Str × LowLevelSqw) :=
  let rs := io.read_u32
  let r := rs.2.file.read rs.1
  let io2 : LowLevelSqw := { rs.2 with file := r.2 }
  if utf8Valid r.1 then .ok (r.1, io2)
  else .error ⟨.unicodeDecodeError, some ⟨"char array", io.pathPiece, io2.position⟩⟩

/-- C5 counterexample: the claim says a `u32` read of a stream that ends before
four bytes fails with a `Truncated` error; in the code `read_u32` does not fail
at all — on a one-byte stream it succeeds and returns the value of that single
byte. -/
theorem read_u32_truncated_succeeds :
    LowLevelSqw.read_u32 ⟨⟨[7], 0⟩, Byteorder.little, none⟩ =
      (7, ⟨⟨[7], 1⟩, Byteorder.little, none⟩) := by
  decide

/-- C5 as amended: a short `u32` read does not fail — `read_u32` always
succeeds and returns the integer of however many bytes remain; a short `f64`
read fails (with `struct.error`) but carries no path/position annotation;
malformed UTF-8 in a char array fails with an `Encoding` error annotated with
the file description ("in-memory SQW file" for path-less sources) and the byte
position at which the failure occurred. -/
theorem lowLevel_read_failure_semantics (io : LowLevelSqw) :
    (io.read_u32 =
      (intFromBytes io.byteorder ((io.file.data.drop io.file.pos).take 4),
        { io with file := ⟨io.file.data,
            io.file.pos + ((io.file.data.drop io.file.pos).take 4).length⟩ })) ∧
    (io.file.data.length < io.file.pos + 8 →
      io.read_f64 = .error ⟨.structError, none⟩) ∧
    (∀ payload io2,
      io.read_u32.2.file.read io.read_u32.1 = (payload, io2) →
      utf8Valid payload = false →
      io.read_char_array =
        .error ⟨.unicodeDecodeError,
          some ⟨"char array", io.pathPiece, io2.pos⟩⟩) := by
  refine ⟨rfl, ?_, ?_⟩
  · intro h
    have hlen : ((io.file.data.drop io.file.pos).take 8).length ≠ 8 := by
      simp only [List.length_take, List.length_drop]
      omega
    simp only [LowLevelSqw.read_f64, RStream.read]
    exact if_neg hlen
  · intro payload io2 hread hbad
    simp only [LowLevelSqw.read_char_array, hread, hbad, Bool.false_eq_true,
      if_false, LowLevelSqw.position, RStream.tell]

/-- Witness for C5 (amended) at a concrete stream: the five bytes
`[1, 0, 0, 0, 0x80]` hold a char-array length of 1 followed by the invalid
UTF-8 byte `0x80`; the f64 read also sees fewer than eight bytes. -/
theorem lowLevel_read_failure_semantics_witness :
    (LowLevelSqw.read_f64 ⟨⟨[1, 0, 0, 0, 128], 0⟩, Byteorder.little, none⟩ =
      .error ⟨.structError, none⟩) ∧
    (LowLevelSqw.read_char_array ⟨⟨[1, 0, 0, 0, 128], 0⟩, Byteorder.little, none⟩ =
      .error ⟨.unicodeDecodeError, some ⟨"char array", "in-memory SQW file", 5⟩⟩) := by
  have h := lowLevel_read_failure_semantics ⟨⟨[1, 0, 0, 0, 128], 0⟩, Byteorder.little, none⟩
  refine ⟨h.2.1 (by decide), h.2.2 [128] ⟨[1, 0, 0, 0, 128], 5⟩ (by decide) (by decide)⟩

/-- The single-byte type tags of SQW files (`TypeTag` in `src/sqomega/_ir.py`
lines 17-33). -/
inductive TypeTag where
  | logical
  | char
  | f64
  | f32
  | i8
  | u8
  | i32
  | u32
  | i64
  | u64
  | cell
  | struct
  | serializable
deriving DecidableEq, Repr

/-- Numeric value of a type tag (the enum values in `_ir.py`). -/
def TypeTag.val : TypeTag → Nat
  | .logical => 0
  | .char => 1
  | .f64 => 3
  | .f32 => 4
  | .i8 => 5
  | .u8 => 6
  | .i32 => 9
  | .u32 => 10
  | .i64 => 11
  | .u64 => 12
  | .cell => 23
  | .struct => 24
  | .serializable => 32

/-- A timezone-aware UTC `datetime.datetime` (the builder only ever creates
`datetime.now(tz=timezone.utc)` and `datetime(1, 1, 1, tzinfo=timezone.utc)`). -/
structure PyDatetime where
  year : Nat
  month : Nat
  day : Nat
  hour : Nat
  minute : Nat
  second : Nat
deriving DecidableEq, Repr

mutual
/-- The scalar IR variants (`ir.Object` in `src/sqomega/_ir.py` lines 57-100):
`Struct | String | F64 | U64 | U32 | U8 | Logical | Datetime`.  Floats are
carried as their IEEE-754 binary64 bit patterns. -/
inductive IRObject where
  | struct (s : IRStruct)
  | string (v : Str)
  | f64 (bits : Nat)
  | u64 (v : Nat)
  | u32 (v : Nat)
  | u8 (v : Nat)
  | logical (v : Bool)
  | datetime (d : PyDatetime)

/-- `ir.Struct`: field names plus a cell array of field values. -/
inductive IRStruct where
  | mk (field_names : List Str) (field_values : IRCellArray)

/-- `ir.CellArray`: a shaped heterogeneous array whose items are typed
object arrays. -/
inductive IRCellArray where
  | mk (shape : List Nat) (data : List IRObjectArray)

/-- `ir.ObjectArray`: a homogeneous typed array of IR objects. -/
inductive IRObjectArray where
  | mk (ty : TypeTag) (shape : List Nat) (data : List IRObject)
end

/-- Field names of a struct. -/
def IRStruct.field_names : IRStruct → List Str
  | .mk ns _ => ns

/-- Field values of a struct. -/
def IRStruct.field_values : IRStruct → IRCellArray
  | .mk _ vs => vs

/-- Shape of a cell array. -/
def IRCellArray.shape : IRCellArray → List Nat
  | .mk sh _ => sh

/-- Items of a cell array. -/
def IRCellArray.data : IRCellArray → List IRObjectArray
  | .mk _ d => d

/-- Element type of an object array. -/
def IRObjectArray.ty : IRObjectArray → TypeTag
  | .mk t _ _ => t

/-- Shape of an object array. -/
def IRObjectArray.shape : IRObjectArray → List Nat
  | .mk _ sh _ => sh

/-- Elements of an object array. -/
def IRObjectArray.data : IRObjectArray → List IRObject
  | .mk _ _ d => d

/-- The `ty` class variable of each `ir.Object` class (`Datetime` shares the
`char` tag, `_ir.py` line 97). -/
def IRObject.ty : IRObject → TypeTag
  | .struct _ => .struct
  | .string _ => .char
  | .f64 _ => .f64
  | .u64 _ => .u64
  | .u32 _ => .u32
  | .u8 _ => .u8
  | .logical _ => .logical
  | .datetime _ => .char

/-- The argument type of `write_object_array` and `_parse_block`:
`ir.ObjectArray | ir.CellArray`. -/
inductive IRArrayVal where
  | obj (a : IRObjectArray)
  | cell (c : IRCellArray)

/-- Two ASCII decimal digits, zero-padded (for ISO-8601 rendering). -/
def decDigits2 (n : Nat) : Str := [48 + n / 10 % 10, 48 + n % 10]

/-- Four ASCII decimal digits, zero-padded. -/
def decDigits4 (n : Nat) : Str :=
  [48 + n / 1000 % 10, 48 + n / 100 % 10, 48 + n / 10 % 10, 48 + n % 10]

/-- Python `datetime.isoformat(timespec="seconds")` for a tz-aware UTC value:
`YYYY-MM-DDTHH:MM:SS+00:00`, as UTF-8 bytes. -/
def PyDatetime.isoformatSeconds (d : PyDatetime) : Str :=
  decDigits4 d.year ++ [45] ++ decDigits2 d.month ++ [45] ++ decDigits2 d.day ++
    [84] ++ decDigits2 d.hour ++ [58] ++ decDigits2 d.minute ++ [58] ++
    decDigits2 d.second ++ [43, 48, 48, 58, 48, 48]

/-- `_serialize_field` (`src/sqomega/_ir.py` lines 124-127): datetimes are
rendered as ISO-8601 seconds-precision strings; all other objects pass
through. -/
def serializeField : IRObject → IRObject
  | .datetime d => .string d.isoformatSeconds
  | o => o

/-- `Serializable.serialize_to_ir` (`src/sqomega/_ir.py` lines 107-118): wrap
the ordered field dictionary in a struct whose field values form a cell array
of shape `(len(fields), 1)` with one single-element object array per field. -/
def serializeToIR (fields : List (Str × IRObject)) : IRStruct :=
  .mk (fields.map Prod.fst)
    (.mk [fields.length, 1]
      (fields.map fun f => .mk (IRObject.ty f.2) [1] [serializeField f.2]))

/-- Modelled from the spec: `Serializable.to_object_array` is called by the
builder (`_build.py` line 170) but is not defined in the given sources; spec
§4.D says the struct is "wrapped in an `ObjectArray(ty=Struct, shape=(1,))`". -/
def IRStruct.toObjectArray (s : IRStruct) : IRObjectArray :=
  .mk .struct [1] [.struct s]

/-- Base-2 logarithm by fuelled structural recursion (so that concrete values
reduce inside the kernel); agrees with `Nat.log2` because the fuel `n` always
dominates `log2 n`. -/
def natLog2Aux : Nat → Nat → Nat
  | 0, _ => 0
  | fuel + 1, m => if 2 ≤ m then natLog2Aux fuel (m / 2) + 1 else 0

/-- Base-2 logarithm of a positive natural. -/
def natLog2 (n : Nat) : Nat := natLog2Aux n n

/-- IEEE-754 binary64 bit pattern of a natural number (Python `float(n)`);
exact for `n < 2 ^ 53` and truncating above (Python rounds to nearest even,
but the program only converts small exact integers). -/
def floatBitsOfNat (n : Nat) : Nat :=
  if n = 0 then 0
  else
    let e := natLog2 n
    let m := if e ≤ 52 then n * 2 ^ (52 - e) - 2 ^ 52 else n / 2 ^ (e - 52) - 2 ^ 52
    (1023 + e) * 2 ^ 52 + m

/-- Modelled from the spec: `LowLevelSqw.write_u8` (§4.A fixed-width writes).
Inside `write_object_array` every write appends to the sink, so the serializer
below is embedded as a byte-list producer. -/
def writeU8 (n : Nat) : List Nat := [n % 256]

/-- Modelled from the spec: `LowLevelSqw.write_u32` (§4.A). -/
def writeU32 (bo : Byteorder) (n : Nat) : List Nat := intToBytes bo 4 n

/-- Modelled from the spec: `LowLevelSqw.write_u64` (§4.A). -/
def writeU64 (bo : Byteorder) (n : Nat) : List Nat := intToBytes bo 8 n

/-- Modelled from the spec: `LowLevelSqw.write_f64` (§4.A); the argument is
the IEEE-754 binary64 bit pattern. -/
def writeF64 (bo : Byteorder) (bits : Nat) : List Nat := intToBytes bo 8 bits

/-- Modelled from the spec: `LowLevelSqw.write_chars` — the raw UTF-8 bytes of
a string, no length prefix (§4.C character arrays). -/
def writeChars (s : Str) : List Nat := s

/-- Modelled from the spec: `LowLevelSqw.write_char_array` — a `u32` byte
length followed by the UTF-8 bytes (§4.A). -/
def writeCharArray (bo : Byteorder) (s : Str) : List Nat :=
  writeU32 bo s.length ++ writeChars s

/-- Modelled from the spec: `LowLevelSqw.write_logical` — one byte, 0 or 1
(§3 block descriptor `locked` and §4.C logical payloads are byte-wide). -/
def writeLogical (b : Bool) : List Nat := [if b then 1 else 0]

/-- `_write_char_array` (`src/sqomega/_read_write.py` lines 88-92): write the
raw bytes of each string; a non-`String` object has no string `value` and the
underlying write raises. -/
def writeCharData : List IRObject → Except String (List Nat)
  | [] => pure []
  | .string s :: rest => do pure (writeChars s ++ (← writeCharData rest))
  | _ :: _ => .error "char writer applied to a non-string object"

/-- `_write_f64` (lines 146-153), list branch: write each value as f64;
a non-`F64` element would make `write_f64` fail. -/
def writeF64Data (bo : Byteorder) : List IRObject → Except String (List Nat)
  | [] => pure []
  | .f64 bits :: rest => do pure (writeF64 bo bits ++ (← writeF64Data bo rest))
  | _ :: _ => .error "f64 writer applied to a non-f64 object"

/-- `_write_logical` (lines 161-165). -/
def writeLogicalData : List IRObject → Except String (List Nat)
  | [] => pure []
  | .logical b :: rest => do pure (writeLogical b ++ (← writeLogicalData rest))
  | _ :: _ => .error "logical writer applied to a non-logical object"

theorem list_sizeOf_pos {α : Type} [SizeOf α] (l : List α) : 0 < sizeOf l := by
  cases l <;> simp_arith

mutual
/-- `write_object_array` (`src/sqomega/_read_write.py` lines 67-77): emit the
tag byte, the number of dimensions, the `u32` shape entries, then the payload
through the writer registry (which has entries only for `char`, `cell`,
`struct`, `f64` and `logical`; any other tag raises `ValueError`). -/
def writeArrayVal (bo : Byteorder) : IRArrayVal → Except String (List Nat)
  | .obj (.mk ty shape data) => do
    let payload ← writeTagData bo ty data
    pure (writeU8 ty.val ++ writeU8 shape.length ++
      shape.flatMap (writeU32 bo) ++ payload)
  | .cell (.mk shape data) => do
    let payload ← writeCellData bo data
    pure (writeU8 TypeTag.cell.val ++ writeU8 shape.length ++
      shape.flatMap (writeU32 bo) ++ payload)
termination_by a => sizeOf a
decreasing_by
  all_goals simp_wf
  all_goals omega

/-- Dispatch on the writer registry `_WRITERS` (registered: char, cell,
struct, f64, logical; everything else raises `ValueError`, and the cell entry
is only reachable through a `CellArray`). -/
def writeTagData (bo : Byteorder) (ty : TypeTag) (data : List IRObject) :
    Except String (List Nat) :=
  match ty with
  | .char => writeCharData data
  | .f64 => writeF64Data bo data
  | .logical => writeLogicalData data
  | .struct => writeStructData bo data
  | _ => .error "No writer for SQW type"
termination_by sizeOf data + 1
decreasing_by
  all_goals simp_wf

/-- `_write_struct` (lines 120-124): write each struct in sequence. -/
def writeStructData (bo : Byteorder) : List IRObject → Except String (List Nat)
  | [] => pure []
  | .struct s :: rest => do
    let b ← writeSingleStruct bo s
    let r ← writeStructData bo rest
    pure (b ++ r)
  | _ :: _ => .error "struct writer applied to a non-struct object"
termination_by l => sizeOf l
decreasing_by
  all_goals simp_wf
  all_goals omega

/-- `_write_single_struct` (lines 127-133): field count, name lengths, name
bytes, then the field values as a cell array. -/
def writeSingleStruct (bo : Byteorder) (s : IRStruct) : Except String (List Nat) :=
  match s with
  | .mk names values => do
    let tail ← writeArrayVal bo (.cell values)
    pure (writeU32 bo names.length ++
      names.flatMap (fun n => writeU32 bo n.length) ++
      names.flatten ++ tail)
termination_by sizeOf s
decreasing_by
  all_goals simp_wf
  all_goals (rename List Str => ns; have h := list_sizeOf_pos ns; omega)

/-- `_write_cell` (lines 100-104): write each item as an object array. -/
def writeCellData (bo : Byteorder) : List IRObjectArray → Except String (List Nat)
  | [] => pure []
  | oa :: rest => do
    let b ← writeArrayVal bo (.obj oa)
    let r ← writeCellData bo rest
    pure (b ++ r)
termination_by l => sizeOf l
decreasing_by
  all_goals simp_wf
  all_goals (first
    | omega
    | (have h := list_sizeOf_pos rest; omega))
end

/-- C6: for every ordered field dictionary, `serialize_to_ir` produces a
struct whose `field_values` is a cell array of shape `(n, 1)` with exactly one
single-element object array per field, and whenever the resulting object array
is serialized, the written bytes carry that same `(n, 1)` shape for the cell —
the cell tag byte 23, two dimensions, then `n` and `1` — right after the
struct header. -/
theorem serializeToIR_cell_shape (bo : Byteorder) (fields : List (Str × IRObject))
    (bs : List Nat)
    (h : writeArrayVal bo (.obj (serializeToIR fields).toObjectArray) = .ok bs) :
    (serializeToIR fields).field_values.shape = [fields.length, 1] ∧
    (serializeToIR fields).field_values.data.length = fields.length ∧
    (∀ oa ∈ (serializeToIR fields).field_values.data, oa.data.length = 1) ∧
    ∃ tail,
      bs = writeU8 TypeTag.struct.val ++ writeU8 1 ++ writeU32 bo 1 ++
        writeU32 bo fields.length ++
        (fields.map Prod.fst).flatMap (fun nm => writeU32 bo nm.length) ++
        (fields.map Prod.fst).flatten ++
        writeU8 TypeTag.cell.val ++ writeU8 2 ++ writeU32 bo fields.length ++
        writeU32 bo 1 ++ tail := by
  refine ⟨rfl, by simp [serializeToIR, IRStruct.field_values, IRCellArray.data], ?_, ?_⟩
  · intro oa hoa
    simp only [serializeToIR, IRStruct.field_values, IRCellArray.data,
      List.mem_map] at hoa
    obtain ⟨f, _, rfl⟩ := hoa
    rfl
  · simp only [serializeToIR, IRStruct.toObjectArray, writeArrayVal,
      writeTagData, writeStructData, writeSingleStruct] at h
    rcases hcell : writeCellData bo
        (List.map (fun f => IRObjectArray.mk f.2.ty [1] [serializeField f.2]) fields)
      with e | p
    · rw [hcell] at h
      simp at h
    · rw [hcell] at h
      simp at h
      exact ⟨p, by rw [← h]; simp [List.append_assoc]⟩

/-- Witness for C6 at a concrete one-field dictionary (field name "a", string
value "b"): the serializer succeeds and the cell shape facts hold. -/
theorem serializeToIR_cell_shape_witness :
    (serializeToIR [([97], IRObject.string [98])]).field_values.shape = [1, 1] ∧
    (serializeToIR [([97], IRObject.string [98])]).field_values.data.length = 1 :=
  have h := serializeToIR_cell_shape .little [([97], IRObject.string [98])]
    [24, 1, 1, 0, 0, 0, 1, 0, 0, 0, 1, 0, 0, 0, 97, 23, 2, 1, 0, 0, 0, 1, 0, 0, 0,
      1, 1, 1, 0, 0, 0, 98]
    (by
      simp [writeArrayVal, writeTagData, writeStructData, writeSingleStruct,
        writeCellData, writeCharData, serializeToIR, IRStruct.toObjectArray,
        writeU8, writeU32, writeChars, intToBytes, intToBytesLE_four,
        TypeTag.val, serializeField, IRObject.ty]
      rfl)
  ⟨h.1, h.2.1⟩

/-- UTF-8 bytes of "serial_name". -/
def strSerialName : Str := [115, 101, 114, 105, 97, 108, 95, 110, 97, 109, 101]

/-- UTF-8 bytes of "version". -/
def strVersion : Str := [118, 101, 114, 115, 105, 111, 110]

/-- UTF-8 bytes of "main_header_cl". -/
def strMainHeaderCl : Str :=
  [109, 97, 105, 110, 95, 104, 101, 97, 100, 101, 114, 95, 99, 108]

/-- UTF-8 bytes of "pix_metadata". -/
def strPixMetadata : Str := [112, 105, 120, 95, 109, 101, 116, 97, 100, 97, 116, 97]

/-- UTF-8 bytes of "IX_null_inst". -/
def strIXNullInst : Str := [73, 88, 95, 110, 117, 108, 108, 95, 105, 110, 115, 116]

/-- UTF-8 bytes of "IX_experiment". -/
def strIXExperiment : Str :=
  [73, 88, 95, 101, 120, 112, 101, 114, 105, 109, 101, 110, 116]

/-- UTF-8 bytes of "IX_samp". -/
def strIXSamp : Str := [73, 88, 95, 115, 97, 109, 112]

/-- UTF-8 bytes of "IX_source". -/
def strIXSource : Str := [73, 88, 95, 115, 111, 117, 114, 99, 101]

/-- UTF-8 bytes of "unique_references_container". -/
def strUniqueReferencesContainer : Str :=
  [117, 110, 105, 113, 117, 101, 95, 114, 101, 102, 101, 114, 101, 110, 99, 101,
   115, 95, 99, 111, 110, 116, 97, 105, 110, 101, 114]

/-- UTF-8 bytes of "unique_objects_container". -/
def strUniqueObjectsContainer : Str :=
  [117, 110, 105, 113, 117, 101, 95, 111, 98, 106, 101, 99, 116, 115, 95, 99,
   111, 110, 116, 97, 105, 110, 101, 114]

/-- Exceptions during schema raising: `AbortParse` (caught by `_parse_block`
and turned into a warning) versus every other Python exception (`ValueError`
from a strict zip, `IndexError`, `AttributeError`, ...), which propagates. -/
inductive ParseExc where
  | abortParse (msg : String)
  | other (msg : String)
deriving DecidableEq, Repr

/-- The loop of `_get_struct_field` (`src/sqomega/_sqw.py` lines 237-243):
walk `zip(field_names, field_values.data, strict=True)` and return the first
value whose name matches.  The strict zip raises `ValueError` only when one
side is exhausted before the other — a match found earlier returns without
error, exactly as in Python. -/
def zipStrictFind : List Str → List IRObjectArray → Str →
    Except ParseExc IRObjectArray
  | [], [], name =>
    .error (.abortParse ("No field " ++ toString name.length ++ " in struct"))
  | n :: ns, v :: vs, name =>
    if n = name then .ok v else zipStrictFind ns vs name
  | _, _, _ => .error (.other "ValueError: zip argument lengths differ")

/-- `_get_struct_field` (`src/sqomega/_sqw.py` lines 237-243). -/
def getStructField (s : IRStruct) (name : Str) : Except ParseExc IRObjectArray :=
  zipStrictFind s.field_names s.field_values.data name

/-- `_get_struct_type_id` (`src/sqomega/_sqw.py` lines 219-234): extract and
validate the `serial_name` and `version` fields; the result pairs the name
bytes with the IEEE-754 bit pattern of the version. -/
def getStructTypeId (s : IRStruct) : Except ParseExc (Str × Nat) :=
  match getStructField s strSerialName with
  | .error e => .error e
  | .ok name =>
    if name.shape.length ≠ 1 then
      .error (.abortParse "serial_name is multi-dimensional")
    else
      match getStructField s strVersion with
      | .error e => .error e
      | .ok version =>
        if version.shape ≠ [1] then
          .error (.abortParse "version is multi-dimensional")
        else
          match name.data.head?, version.data.head? with
          | none, _ => .error (.other "IndexError: name.data is empty")
          | some _, none => .error (.other "IndexError: version.data is empty")
          | some (.string sn), some (.f64 bits) => .ok (sn, bits)
          | some (.string _), some _ =>
            .error (.abortParse "version is not an f64")
          | some _, some _ =>
            .error (.abortParse "serial_name is not a string")

/-- The keys of the `_BLOCK_PARSERS` registry (`src/sqomega/_sqw.py` lines
367-379), with versions as binary64 bit patterns.  Python would compare the
version as a float (so a written `-0.0` would also match a `0.0` key); no
schema in the registry exercises that corner. -/
def blockParserKeys : List (Str × Nat) :=
  [(strMainHeaderCl, floatBitsOfNat 2),
   (strPixMetadata, floatBitsOfNat 1),
   (strIXNullInst, floatBitsOfNat 2),
   (strIXExperiment, floatBitsOfNat 3),
   (strIXSamp, floatBitsOfNat 0),
   (strIXSource, floatBitsOfNat 2),
   (strUniqueReferencesContainer, floatBitsOfNat 1),
   (strUniqueObjectsContainer, floatBitsOfNat 1)]

/-- Result of a successful schema raise: the registry key that matched plus
the struct handed to the registered parser.  The bodies of the individual
parsers (which build domain objects out of the struct) are outside the scope
of the properties proved here and are left abstracted. -/
inductive ParsedBlock where
  | parsed (key : Str × Nat) (s : IRStruct)

/-- `_try_parse_block` (`src/sqomega/_sqw.py` lines 199-216): shape must be
`(1,)`, the element type must be `struct`, the field-values cell must have
exactly one non-1 dimension, and the `(serial_name, version)` key must be
registered.  The Python code reads `block.data[0]` with only a type
annotation; a missing element is an `IndexError` and a non-struct element
fails attribute lookup — neither is an `AbortParse`. -/
def tryParseBlock (block : IRObjectArray) : Except ParseExc ParsedBlock :=
  if block.shape ≠ [1] then
    .error (.abortParse "Unsupported block shape")
  else if block.ty ≠ .struct then
    .error (.abortParse "Unsupported block type, expected struct")
  else
    match block.data.head? with
    | some (.struct s) =>
      if (s.field_values.shape.countP fun d => d ≠ 1) ≠ 1 then
        .error (.abortParse "Contents cannot be a multi-dimensional cell array")
      else
        match getStructTypeId s with
        | .error e => .error e
        | .ok key =>
          if key ∈ blockParserKeys then .ok (.parsed key s)
          else .error (.abortParse "No parser for struct type")
    | some _ => .error (.other "AttributeError: object has no field_values")
    | none => .error (.other "IndexError: block.data is empty")

/-- Outcome of `_parse_block`: either a raised value or the raw IR block. -/
inductive ParseOutcome where
  | value (v : ParsedBlock)
  | raw (b : IRArrayVal)

/-- `_parse_block` (`src/sqomega/_sqw.py` lines 187-196): catch `AbortParse`,
emit one `UserWarning` and return the raw block; let every other exception
propagate.  The second component counts the warnings emitted. -/
def parseBlock (block : IRArrayVal) : Except ParseExc (ParseOutcome × Nat) :=
  match block with
  | .cell _ => .ok (.raw block, 1)
  | .obj oa =>
    match tryParseBlock oa with
    | .ok v => .ok (.value v, 0)
    | .error (.abortParse _) => .ok (.raw block, 1)
    | .error (.other m) => .error (.other m)

/-- C4: every listed schema-raise failure — cell array instead of struct,
shape other than `(1,)`, non-struct element type, multi-dimensional
field-values cell, missing or mistyped `serial_name`/`version` (an
`AbortParse` out of `_get_struct_type_id`), or an unregistered
`(serial_name, version)` key — is caught inside `_parse_block`, which then
returns the raw IR block and emits exactly one warning instead of an error. -/
theorem parseBlock_obj_abort (oa : IRObjectArray) (m : String)
    (h : tryParseBlock oa = .error (.abortParse m)) :
    parseBlock (.obj oa) = .ok (.raw (.obj oa), 1) := by
  simp [parseBlock, h]

/-- C4 helper: when the struct passed the shape checks but its type id lookup
aborts or misses the registry, `_try_parse_block` raises `AbortParse`. -/
theorem tryParseBlock_aborts (oa : IRObjectArray) (s : IRStruct)
    (hshape : oa.shape = [1]) (hty : oa.ty = TypeTag.struct)
    (hdata : oa.data.head? = some (.struct s))
    (h : (s.field_values.shape.countP fun d => d ≠ 1) ≠ 1 ∨
      (∃ e, getStructTypeId s = .error (.abortParse e)) ∨
      (∃ k, getStructTypeId s = .ok k ∧ k ∉ blockParserKeys)) :
    ∃ m, tryParseBlock oa = .error (.abortParse m) := by
  by_cases hdim : (List.countP (fun d => !decide (d = 1)) s.field_values.shape) = 1
  · rcases h with hd | ⟨e, he⟩ | ⟨k, hk, hnk⟩
    · exact absurd (by simpa using hdim) hd
    · exact ⟨e, by simp [tryParseBlock, hshape, hty, hdata, hdim, he]⟩
    · exact ⟨"No parser for struct type",
        by simp [tryParseBlock, hshape, hty, hdata, hdim, hk, hnk]⟩
  · exact ⟨"Contents cannot be a multi-dimensional cell array",
      by simp [tryParseBlock, hshape, hty, hdata, hdim]⟩

theorem parseBlock_schema_failures (block : IRArrayVal)
    (h : (∃ c, block = .cell c) ∨
      (∃ oa, block = .obj oa ∧ (oa.shape ≠ [1] ∨ oa.ty ≠ TypeTag.struct)) ∨
      (∃ oa s, block = .obj oa ∧ oa.shape = [1] ∧ oa.ty = TypeTag.struct ∧
        oa.data.head? = some (.struct s) ∧
        ((s.field_values.shape.countP fun d => d ≠ 1) ≠ 1 ∨
          (∃ e, getStructTypeId s = .error (.abortParse e)) ∨
          (∃ k, getStructTypeId s = .ok k ∧ k ∉ blockParserKeys)))) :
    parseBlock block = .ok (.raw block, 1) := by
  rcases h with ⟨c, rfl⟩ | ⟨oa, rfl, hbad⟩ | ⟨oa, s, rfl, hshape, hty, hdata, hbad⟩
  · rfl
  · rcases hbad with hsh | ht
    · simp [parseBlock, tryParseBlock, hsh]
    · by_cases hsh : oa.shape = [1] <;> simp [parseBlock, tryParseBlock, hsh, ht]
  · obtain ⟨m, hm⟩ := tryParseBlock_aborts oa s hshape hty hdata hbad
    exact parseBlock_obj_abort oa m hm

set_option maxRecDepth 2048 in
/-- Witness for C4 at a concrete block: a structurally valid struct whose
serial name "IX_samp" carries version 1.0 — a pair absent from the parser
registry — is returned raw with one warning. -/
theorem parseBlock_schema_failures_witness :
    parseBlock (.obj (.mk .struct [1]
      [.struct (.mk [strSerialName, strVersion]
        (.mk [2, 1]
          [.mk .char [7] [.string strIXSamp],
           .mk .f64 [1] [.f64 (floatBitsOfNat 1)]]))])) =
      .ok (.raw (.obj (.mk .struct [1]
        [.struct (.mk [strSerialName, strVersion]
          (.mk [2, 1]
            [.mk .char [7] [.string strIXSamp],
             .mk .f64 [1] [.f64 (floatBitsOfNat 1)]]))])), 1) := by
  apply parseBlock_schema_failures
  refine Or.inr (Or.inr ⟨_, _, rfl, rfl, rfl, rfl, Or.inr (Or.inr ⟨(strIXSamp, floatBitsOfNat 1), ?_, ?_⟩)⟩)
  · rfl
  · decide

/-- UTF-8 bytes of "data_block". -/
def strDataBlock : Str := [100, 97, 116, 97, 95, 98, 108, 111, 99, 107]

/-- UTF-8 bytes of "pix_data_block". -/
def strPixDataBlock : Str :=
  [112, 105, 120, 95, 100, 97, 116, 97, 95, 98, 108, 111, 99, 107]

/-- UTF-8 bytes of "dnd_data_block". -/
def strDndDataBlock : Str :=
  [100, 110, 100, 95, 100, 97, 116, 97, 95, 98, 108, 111, 99, 107]

/-- `SqwDataBlockType` (`src/sqomega/_models.py` lines 32-35). -/
inductive SqwDataBlockType where
  | regular
  | pix
  | dnd
deriving DecidableEq, Repr

/-- The wire string of a block type (the enum values). -/
def SqwDataBlockType.value : SqwDataBlockType → Str
  | .regular => strDataBlock
  | .pix => strPixDataBlock
  | .dnd => strDndDataBlock

/-- The enum constructor `SqwDataBlockType(s)`: `none` models the `ValueError`
Python raises for an unknown value. -/
def SqwDataBlockType.ofValue (s : Str) : Option SqwDataBlockType :=
  if s = strDataBlock then some .regular
  else if s = strPixDataBlock then some .pix
  else if s = strDndDataBlock then some .dnd
  else none

/-- `DataBlockName = tuple[str, str]` (`src/sqomega/_models.py` line 16). -/
abbrev DataBlockName := Str × Str

/-- `SqwDataBlockDescriptor` (`src/sqomega/_models.py` lines 38-44). -/
structure SqwDataBlockDescriptor where
  block_type : SqwDataBlockType
  name : DataBlockName
  position : Nat
  size : Nat
  locked : Bool
deriving DecidableEq, Repr

/-- Python `dict` assignment `d[k] = v` on an insertion-ordered dictionary
modelled as an association list: an existing key keeps its place and gets the
new value; a new key is appended.  (A dict built from repeated inserts always
has distinct keys, so replacing the first occurrence is exact.) -/
def pyDictInsert {α β : Type} [DecidableEq α] :
    List (α × β) → α → β → List (α × β)
  | [], k, v => [(k, v)]
  | kv :: rest, k, v =>
    if kv.1 = k then (k, v) :: rest else kv :: pyDictInsert rest k v

/-- A Python dict built from a sequence of key-value pairs (dict comprehension
semantics: later pairs overwrite earlier ones in place). -/
def pyDictOf {α β : Type} [DecidableEq α] (l : List (α × β)) : List (α × β) :=
  l.foldl (fun d kv => pyDictInsert d kv.1 kv.2) []

/-- Python `d[k]` (`None` models `KeyError`). -/
def pyLookup {α β : Type} [DecidableEq α] (d : List (α × β)) (k : α) : Option β :=
  (d.find? (fun kv => kv.1 = k)).map Prod.snd

/-- A seekable in-memory binary sink (`io.BytesIO` opened for writing). -/
structure WBuf where
  data : List Nat
  pos : Nat
deriving DecidableEq, Repr

/-- Python `file.write(bs)` on a `BytesIO`: overwrite `len(bs)` bytes at the
current position (zero-padding any gap when the position is past the end) and
advance. -/
def WBuf.write (w : WBuf) (bs : List Nat) : WBuf :=
  ⟨w.data.take w.pos ++ List.replicate (w.pos - w.data.length) 0 ++ bs ++
      w.data.drop (w.pos + bs.length),
    w.pos + bs.length⟩

/-- Python `file.seek(n)` on a `BytesIO`. -/
def WBuf.seek (w : WBuf) (n : Nat) : WBuf := ⟨w.data, n⟩

/-- Python `file.tell()` / `sqw_io.position`. -/
def WBuf.position (w : WBuf) : Nat := w.pos

theorem WBuf.write_append (w : WBuf) (bs : List Nat) (h : w.pos = w.data.length) :
    w.write bs = ⟨w.data ++ bs, w.pos + bs.length⟩ := by
  simp [WBuf.write, h, List.take_of_length_le, List.drop_of_length_le]

theorem WBuf.write_length_of_le (w : WBuf) (bs : List Nat)
    (h : w.pos + bs.length ≤ w.data.length) :
    (w.write bs).data.length = w.data.length := by
  simp only [WBuf.write, List.length_append, List.length_take, List.length_replicate,
    List.length_drop]
  omega

theorem WBuf.seek_zero_write (w : WBuf) (bs : List Nat) :
    ((w.seek 0).write bs).data = bs ++ w.data.drop bs.length := by
  simp [WBuf.seek, WBuf.write]

/-- The bytes of one serialized block descriptor
(`_write_data_block_descriptor`, `src/sqomega/_build.py` lines 259-269). -/
def dataBlockDescriptorBytes (bo : Byteorder) (d : SqwDataBlockDescriptor) :
    List Nat :=
  writeCharArray bo d.block_type.value ++ writeCharArray bo d.name.1 ++
    writeCharArray bo d.name.2 ++ writeU64 bo d.position ++
    writeU32 bo d.size ++ writeU32 bo (if d.locked then 1 else 0)

/-- `_write_data_block_descriptor` as a buffer operation; the second component
is the recorded offset of the `position` field inside the buffer. -/
def writeDataBlockDescriptor (bo : Byteorder) (w : WBuf)
    (d : SqwDataBlockDescriptor) : WBuf × Nat :=
  let w1 := w.write (writeCharArray bo d.block_type.value)
  let w2 := w1.write (writeCharArray bo d.name.1)
  let w3 := w2.write (writeCharArray bo d.name.2)
  let offset := w3.position
  let w4 := w3.write (writeU64 bo d.position)
  let w5 := w4.write (writeU32 bo d.size)
  let w6 := w5.write (writeU32 bo (if d.locked then 1 else 0))
  (w6, offset)

/-- The dict comprehension over `_write_data_block_descriptor` in
`_serialize_block_allocation_table` (`src/sqomega/_build.py` lines 220-223):
serialize every descriptor in registration order, recording the buffer offset
of each `position` field keyed by block name. -/
def writeDescriptorsLoop (bo : Byteorder) (w : WBuf)
    (offs : List (DataBlockName × Nat)) :
    List (DataBlockName × SqwDataBlockDescriptor) →
      WBuf × List (DataBlockName × Nat)
  | [] => (w, offs)
  | nd :: rest =>
    let r := writeDataBlockDescriptor bo w nd.2
    writeDescriptorsLoop bo r.1 (pyDictInsert offs nd.1 r.2) rest

/-- The patch loop of `_serialize_block_allocation_table` (lines 227-235):
record each descriptor with its real position, seek to the recorded offset,
overwrite the placeholder `u64`, and advance the running position by the
descriptor's size. -/
def patchPositionsLoop (bo : Byteorder) (offs : List (DataBlockName × Nat))
    (w : WBuf) (block_position : Nat)
    (amended : List (DataBlockName × SqwDataBlockDescriptor)) :
    List (DataBlockName × SqwDataBlockDescriptor) →
      WBuf × Nat × List (DataBlockName × SqwDataBlockDescriptor)
  | [] => (w, block_position, amended)
  | nd :: rest =>
    let amended2 := pyDictInsert amended nd.1 { nd.2 with position := block_position }
    let offset := (pyLookup offs nd.1).getD 0
    let w2 := (w.seek offset).write (writeU64 bo block_position)
    patchPositionsLoop bo offs w2 (block_position + nd.2.size) amended2 rest

/-- `SqwBuilder._serialize_block_allocation_table`
(`src/sqomega/_build.py` lines 202-239): write a provisional BAT
(`bat_size = 0`, the block count, then each descriptor with placeholder
positions), compute `bat_size` and the real block positions, patch them into
the buffer, and return the buffer together with the amended in-memory
descriptors. -/
def serializeBlockAllocationTable (bo : Byteorder)
    (block_descriptors : List (DataBlockName × SqwDataBlockDescriptor))
    (bat_offset : Nat) :
    List Nat × List (DataBlockName × SqwDataBlockDescriptor) :=
  let w0 := (WBuf.mk [] 0).write (writeU32 bo 0)
  let w1 := w0.write (writeU32 bo block_descriptors.length)
  let bat_begin := w1.position
  let r := writeDescriptorsLoop bo w1 [] block_descriptors
  let bat_size := r.1.position - bat_begin
  let block_position := bat_offset + r.1.position
  let st := patchPositionsLoop bo r.2 r.1 block_position [] block_descriptors
  let w3 := (st.1.seek 0).write (writeU32 bo bat_size)
  (w3.data, st.2.2)

/-- The positions the spec prescribes: the first descriptor sits immediately
after the BAT (`bat_end`), and each subsequent one follows the previous
payload. -/
def amendedPositions (bat_end : Nat) :
    List (DataBlockName × SqwDataBlockDescriptor) →
      List (DataBlockName × SqwDataBlockDescriptor)
  | [] => []
  | nd :: rest =>
    (nd.1, { nd.2 with position := bat_end }) ::
      amendedPositions (bat_end + nd.2.size) rest

/-- Serialized byte count of one descriptor. -/
def descriptorNBytes (d : SqwDataBlockDescriptor) : Nat :=
  4 + d.block_type.value.length + 4 + d.name.1.length + 4 + d.name.2.length + 16

theorem find?_append_eq {α : Type} (p : α → Bool) (l1 l2 : List α) :
    (l1 ++ l2).find? p =
      match l1.find? p with
      | some a => some a
      | none => l2.find? p := by
  induction l1 with
  | nil => simp
  | cons y t ih =>
    simp only [List.cons_append, List.find?_cons]
    rcases hy : p y with _ | _ <;> simp [hy, ih]

theorem pyLookup_cons {α β : Type} [DecidableEq α] (kv : α × β)
    (rest : List (α × β)) (k : α) :
    pyLookup (kv :: rest) k =
      if kv.1 = k then some kv.2 else pyLookup rest k := by
  by_cases h : kv.1 = k <;> simp [pyLookup, List.find?_cons, h]

theorem pyLookup_pyDictInsert {α β : Type} [DecidableEq α]
    (d : List (α × β)) (k k' : α) (v : β) :
    pyLookup (pyDictInsert d k v) k' =
      if k = k' then some v else pyLookup d k' := by
  induction d with
  | nil =>
    show pyLookup [(k, v)] k' = _
    rw [pyLookup_cons]
  | cons kv rest ih =>
    show pyLookup (if kv.1 = k then (k, v) :: rest else
      kv :: pyDictInsert rest k v) k' = _
    by_cases h1 : kv.1 = k
    · rw [if_pos h1, pyLookup_cons, pyLookup_cons]
      by_cases h2 : k = k'
      · simp [h2]
      · rw [if_neg h2, if_neg h2, if_neg (fun he => h2 (h1 ▸ he))]
    · rw [if_neg h1, pyLookup_cons, ih, pyLookup_cons]
      by_cases h2 : kv.1 = k'
      · have hne : ¬ k = k' := fun he => h1 (he ▸ h2)
        rw [if_pos h2, if_neg hne, if_pos h2]
      · rw [if_neg h2, if_neg h2]

theorem keys_pyDictInsert {α β : Type} [DecidableEq α]
    (d : List (α × β)) (k : α) (v : β) :
    (pyDictInsert d k v).map Prod.fst =
      if k ∈ d.map Prod.fst then d.map Prod.fst else d.map Prod.fst ++ [k] := by
  induction d with
  | nil => simp [pyDictInsert]
  | cons kv rest ih =>
    show (if kv.1 = k then (k, v) :: rest else
      kv :: pyDictInsert rest k v).map Prod.fst = _
    by_cases h1 : kv.1 = k
    · simp [h1]
    · have hne : ¬ k = kv.1 := fun he => h1 he.symm
      rw [if_neg h1]
      simp only [List.map_cons, ih]
      by_cases h2 : k ∈ rest.map Prod.fst
      · simp [h2, List.mem_cons, hne]
      · simp [h2, List.mem_cons, hne]

theorem pyDictInsert_fresh {α β : Type} [DecidableEq α]
    (d : List (α × β)) (k : α) (v : β) (h : k ∉ d.map Prod.fst) :
    pyDictInsert d k v = d ++ [(k, v)] := by
  induction d with
  | nil => rfl
  | cons kv rest ih =>
    simp only [List.map_cons, List.mem_cons] at h
    push_neg at h
    have h1 : ¬ kv.1 = k := fun he => h.1 he.symm
    show (if kv.1 = k then (k, v) :: rest else kv :: pyDictInsert rest k v) = _
    rw [if_neg h1, ih h.2]
    rfl

theorem pyDictOf_eq_self {α β : Type} [DecidableEq α] (l : List (α × β))
    (h : (l.map Prod.fst).Nodup) : pyDictOf l = l := by
  suffices hgen : ∀ (l d : List (α × β)), (l.map Prod.fst).Nodup →
      (∀ k, k ∈ l.map Prod.fst → k ∉ d.map Prod.fst) →
      l.foldl (fun d kv => pyDictInsert d kv.1 kv.2) d = d ++ l by
    simpa using hgen l [] h (by simp)
  intro l
  induction l with
  | nil => intro d _ _; simp
  | cons x rest ih =>
    intro d hnd hdisj
    have hnd2 : (rest.map Prod.fst).Nodup := by
      simp only [List.map_cons, List.nodup_cons] at hnd
      exact hnd.2
    have hx : x.1 ∉ rest.map Prod.fst := by
      simp only [List.map_cons, List.nodup_cons] at hnd
      exact hnd.1
    have hdisj2 : ∀ k, k ∈ rest.map Prod.fst →
        k ∉ (d ++ [(x.1, x.2)]).map Prod.fst := by
      intro k hk hmem
      rw [List.map_append, List.mem_append] at hmem
      rcases hmem with hd | hx1
      · exact hdisj k (by simp [hk]) hd
      · simp only [List.map_cons, List.map_nil, List.mem_singleton] at hx1
        subst hx1
        exact hx hk
    simp only [List.foldl_cons]
    rw [pyDictInsert_fresh d x.1 x.2 (hdisj x.1 (by simp))]
    rw [ih (d ++ [(x.1, x.2)]) hnd2 hdisj2]
    simp

theorem pyLookup_foldl_insert {α β : Type} [DecidableEq α]
    (l : List (α × β)) (k : α) : ∀ (d : List (α × β)),
    pyLookup (l.foldl (fun d kv => pyDictInsert d kv.1 kv.2) d) k =
      (match l.reverse.find? (fun kv => kv.1 = k) with
        | some kv => some kv.2
        | none => pyLookup d k) := by
  induction l with
  | nil => intro d; simp
  | cons x rest ih =>
    intro d
    simp only [List.foldl_cons, List.reverse_cons]
    rw [ih]
    rw [find?_append_eq]
    rcases hf : rest.reverse.find? (fun kv => kv.1 = k) with _ | kv
    · simp only [hf, List.find?_cons, List.find?_nil]
      rcases hx : (decide (x.1 = k)) with _ | _
      · simp only [hx]
        have hne : ¬ x.1 = k := of_decide_eq_false hx
        rw [pyLookup_pyDictInsert, if_neg hne]
      · simp only [hx]
        have hxk : x.1 = k := of_decide_eq_true hx
        rw [pyLookup_pyDictInsert, if_pos hxk]
    · simp only [hf]

theorem pyLookup_pyDictOf_last {α β : Type} [DecidableEq α]
    (l : List (α × β)) (k : α) :
    pyLookup (pyDictOf l) k =
      (l.reverse.find? (fun kv => kv.1 = k)).map Prod.snd := by
  have h := pyLookup_foldl_insert l k []
  rw [pyDictOf]
  rw [h]
  rcases hf : l.reverse.find? (fun kv => kv.1 = k) with _ | kv <;>
    simp [hf, pyLookup]

theorem keys_pyDictOf_nodup {α β : Type} [DecidableEq α] (l : List (α × β)) :
    ((pyDictOf l).map Prod.fst).Nodup := by
  suffices hgen : ∀ (l d : List (α × β)), ((d.map Prod.fst).Nodup) →
      (((l.foldl (fun d kv => pyDictInsert d kv.1 kv.2) d).map Prod.fst).Nodup) by
    exact hgen l [] (by simp)
  intro l
  induction l with
  | nil => intro d hd; simpa
  | cons x rest ih =>
    intro d hd
    simp only [List.foldl_cons]
    refine ih _ ?_
    rw [keys_pyDictInsert]
    split
    · exact hd
    · rename_i hmem
      simp [List.nodup_append, hd, hmem]

theorem mem_keys_pyDictOf {α β : Type} [DecidableEq α] (l : List (α × β)) (k : α) :
    k ∈ (pyDictOf l).map Prod.fst ↔ k ∈ l.map Prod.fst := by
  suffices hgen : ∀ (l d : List (α × β)),
      (k ∈ (l.foldl (fun d kv => pyDictInsert d kv.1 kv.2) d).map Prod.fst ↔
        k ∈ d.map Prod.fst ∨ k ∈ l.map Prod.fst) by
    simpa using hgen l []
  intro l
  induction l with
  | nil => intro d; simp
  | cons x rest ih =>
    intro d
    simp only [List.foldl_cons, List.map_cons, List.mem_cons]
    rw [ih]
    rw [keys_pyDictInsert]
    constructor
    · intro hin
      rcases hin with hd | hr
      · split at hd
        · exact Or.inl hd
        · rw [List.mem_append] at hd
          rcases hd with hd | hx
          · exact Or.inl hd
          · simp only [List.mem_singleton] at hx
            exact Or.inr (Or.inl hx)
      · exact Or.inr (Or.inr hr)
    · intro hin
      rcases hin with hd | hx | hr
      · left
        split
        · exact hd
        · rw [List.mem_append]
          exact Or.inl hd
      · left
        split
        · rename_i hmem
          exact hx ▸ hmem
        · rw [List.mem_append]
          exact Or.inr (by simp [hx])
      · exact Or.inr hr

theorem writeCharArray_length (bo : Byteorder) (s : Str) :
    (writeCharArray bo s).length = 4 + s.length := by
  simp [writeCharArray, writeU32, writeChars, intToBytes_length]

theorem dataBlockDescriptorBytes_length (bo : Byteorder)
    (d : SqwDataBlockDescriptor) :
    (dataBlockDescriptorBytes bo d).length = descriptorNBytes d := by
  simp [dataBlockDescriptorBytes, descriptorNBytes, writeCharArray_length,
    writeU64, writeU32, intToBytes_length]
  omega

theorem WBuf.write_norm (l bs : List Nat) :
    (WBuf.mk l l.length).write bs = ⟨l ++ bs, (l ++ bs).length⟩ := by
  rw [WBuf.write_append _ _ rfl]
  simp

theorem writeDataBlockDescriptor_spec (bo : Byteorder) (w : WBuf)
    (d : SqwDataBlockDescriptor) (h : w.pos = w.data.length) :
    writeDataBlockDescriptor bo w d =
      (⟨w.data ++ dataBlockDescriptorBytes bo d, w.pos + descriptorNBytes d⟩,
        w.pos + 12 + d.block_type.value.length + d.name.1.length +
          d.name.2.length) := by
  obtain ⟨data, pos⟩ := w
  simp only at h
  subst h
  simp only [writeDataBlockDescriptor, WBuf.position]
  rw [WBuf.write_norm, WBuf.write_norm, WBuf.write_norm, WBuf.write_norm,
    WBuf.write_norm, WBuf.write_norm]
  refine congrArg₂ Prod.mk (congrArg₂ WBuf.mk ?_ ?_) ?_
  · simp [dataBlockDescriptorBytes, List.append_assoc]
  · simp [dataBlockDescriptorBytes_length, writeCharArray_length, writeU64,
      writeU32, intToBytes_length, descriptorNBytes]
    omega
  · simp [writeCharArray_length]
    omega

theorem writeDescriptorsLoop_spec (bo : Byteorder)
    (rest : List (DataBlockName × SqwDataBlockDescriptor)) :
    ∀ (w : WBuf) (offs : List (DataBlockName × Nat)),
    w.pos = w.data.length →
    (∀ k o, pyLookup offs k = some o → o + 16 ≤ w.pos) →
    (writeDescriptorsLoop bo w offs rest).1.data =
      w.data ++ (rest.map fun nd => dataBlockDescriptorBytes bo nd.2).flatten ∧
    (writeDescriptorsLoop bo w offs rest).1.pos =
      (writeDescriptorsLoop bo w offs rest).1.data.length ∧
    w.pos ≤ (writeDescriptorsLoop bo w offs rest).1.pos ∧
    (∀ k o, pyLookup (writeDescriptorsLoop bo w offs rest).2 k = some o →
      o + 16 ≤ (writeDescriptorsLoop bo w offs rest).1.pos) ∧
    (∀ k, k ∈ rest.map Prod.fst ∨ (∃ o0, pyLookup offs k = some o0) →
      ∃ o, pyLookup (writeDescriptorsLoop bo w offs rest).2 k = some o) := by
  induction rest with
  | nil =>
    intro w offs h hoffs
    simp only [writeDescriptorsLoop]
    refine ⟨by simp, h, le_refl _, hoffs, ?_⟩
    intro k hk
    rcases hk with hk | hk
    · simp at hk
    · exact hk
  | cons nd tail ih =>
    intro w offs h hoffs
    simp only [writeDescriptorsLoop]
    rw [writeDataBlockDescriptor_spec bo w nd.2 h]
    have hlen : w.pos + descriptorNBytes nd.2 =
        (w.data ++ dataBlockDescriptorBytes bo nd.2).length := by
      simp [dataBlockDescriptorBytes_length, h]
    have hoffs2 : ∀ k o,
        pyLookup (pyDictInsert offs nd.1
          (w.pos + 12 + nd.2.block_type.value.length + nd.2.name.1.length +
            nd.2.name.2.length)) k = some o →
        o + 16 ≤ w.pos + descriptorNBytes nd.2 := by
      intro k o hko
      rw [pyLookup_pyDictInsert] at hko
      split at hko
      · cases hko
        simp [descriptorNBytes]
        omega
      · have := hoffs k o hko
        have hpos : 0 ≤ descriptorNBytes nd.2 := Nat.zero_le _
        omega
    obtain ⟨h1, h2, h3, h4, h5⟩ := ih ⟨w.data ++ dataBlockDescriptorBytes bo nd.2,
      w.pos + descriptorNBytes nd.2⟩ _ hlen hoffs2
    refine ⟨by simpa [List.append_assoc] using h1, h2, ?_, h4, ?_⟩
    · calc w.pos ≤ w.pos + descriptorNBytes nd.2 := Nat.le_add_right _ _
        _ ≤ _ := h3
    · intro k hk
      apply h5
      rcases hk with hk | ⟨o0, ho0⟩
      · simp only [List.map_cons, List.mem_cons] at hk
        rcases hk with hk | hk
        · right
          refine ⟨w.pos + 12 + nd.2.block_type.value.length + nd.2.name.1.length +
            nd.2.name.2.length, ?_⟩
          rw [pyLookup_pyDictInsert, if_pos hk.symm]
        · exact Or.inl hk
      · right
        by_cases hkk : nd.1 = k
        · refine ⟨w.pos + 12 + nd.2.block_type.value.length + nd.2.name.1.length +
            nd.2.name.2.length, ?_⟩
          rw [pyLookup_pyDictInsert, if_pos hkk]
        · exact ⟨o0, by rw [pyLookup_pyDictInsert, if_neg hkk]; exact ho0⟩

theorem patchPositionsLoop_spec (bo : Byteorder)
    (offs : List (DataBlockName × Nat)) (L : Nat)
    (rest : List (DataBlockName × SqwDataBlockDescriptor)) :
    ∀ (w : WBuf) (bp : Nat)
      (amended : List (DataBlockName × SqwDataBlockDescriptor)),
    w.data.length = L →
    (∀ k o, pyLookup offs k = some o → o + 8 ≤ L) →
    (∀ k, k ∈ rest.map Prod.fst → ∃ o, pyLookup offs k = some o) →
    (rest.map Prod.fst).Nodup →
    (∀ k, k ∈ rest.map Prod.fst → k ∉ amended.map Prod.fst) →
    (patchPositionsLoop bo offs w bp amended rest).1.data.length = L ∧
    (patchPositionsLoop bo offs w bp amended rest).2.2 =
      amended ++ amendedPositions bp rest := by
  induction rest with
  | nil =>
    intro w bp amended hL _ _ _ _
    exact ⟨hL, by simp [patchPositionsLoop, amendedPositions]⟩
  | cons nd tail ih =>
    intro w bp amended hL hbound hfound hnd hfresh
    obtain ⟨o, ho⟩ := hfound nd.1 (by simp)
    have hwlen : ((w.seek ((pyLookup offs nd.1).getD 0)).write
        (writeU64 bo bp)).data.length = L := by
      rw [ho]
      have hb := hbound nd.1 o ho
      have : (writeU64 bo bp).length = 8 := by
        simp [writeU64, intToBytes_length]
      rw [WBuf.write_length_of_le]
      · simpa [WBuf.seek] using hL
      · simp only [WBuf.seek, Option.getD_some, this]
        omega
    have hnd2 : (tail.map Prod.fst).Nodup := by
      simp only [List.map_cons, List.nodup_cons] at hnd
      exact hnd.2
    have hndhd : nd.1 ∉ tail.map Prod.fst := by
      simp only [List.map_cons, List.nodup_cons] at hnd
      exact hnd.1
    have hfresh2 : ∀ k, k ∈ tail.map Prod.fst →
        k ∉ (pyDictInsert amended nd.1
          { nd.2 with position := bp }).map Prod.fst := by
      intro k hk hmem
      rw [keys_pyDictInsert] at hmem
      split at hmem
      · exact hfresh k (by simp [hk]) hmem
      · rw [List.mem_append] at hmem
        rcases hmem with hmem | hmem
        · exact hfresh k (by simp [hk]) hmem
        · simp only [List.mem_singleton] at hmem
          subst hmem
          exact hndhd hk
    obtain ⟨g1, g2⟩ := ih _ (bp + nd.2.size) _ hwlen hbound
      (fun k hk => hfound k (by simp [hk])) hnd2 hfresh2
    refine ⟨g1, ?_⟩
    show (patchPositionsLoop bo offs _ _ _ tail).2.2 = _
    rw [g2]
    rw [pyDictInsert_fresh amended nd.1 _ (hfresh nd.1 (by simp))]
    simp [amendedPositions, List.append_assoc]

/-- C2: after `_serialize_block_allocation_table`, the amended descriptors in
registration order carry positions `position_0 = bat_offset + buffer length`
and `position_{i+1} = position_i + size_i` (expressed through
`amendedPositions`), the serialized buffer is the two leading `u32` fields
plus the descriptor array, and the leading `bat_size` field decodes to exactly
the serialized size of the descriptor array excluding those two leading
`u32` fields. -/
theorem serializeBAT_layout (bo : Byteorder)
    (block_descriptors : List (DataBlockName × SqwDataBlockDescriptor))
    (bat_offset : Nat)
    (hnd : (block_descriptors.map Prod.fst).Nodup)
    (hsz : (block_descriptors.map fun nd => descriptorNBytes nd.2).sum < 2 ^ 32) :
    (serializeBlockAllocationTable bo block_descriptors bat_offset).2 =
      amendedPositions
        (bat_offset +
          (serializeBlockAllocationTable bo block_descriptors bat_offset).1.length)
        block_descriptors ∧
    (serializeBlockAllocationTable bo block_descriptors bat_offset).1.length =
      8 + (block_descriptors.map fun nd => descriptorNBytes nd.2).sum ∧
    intFromBytes bo
        ((serializeBlockAllocationTable bo block_descriptors bat_offset).1.take 4) =
      (serializeBlockAllocationTable bo block_descriptors bat_offset).1.length - 8 := by
  have hw0 : (WBuf.mk [] 0).write (writeU32 bo 0) = ⟨writeU32 bo 0, 4⟩ := by
    rw [WBuf.write_append _ _ rfl]
    simp [writeU32, intToBytes_length]
  have hw1 : (WBuf.mk (writeU32 bo 0) 4).write (writeU32 bo block_descriptors.length) =
      ⟨writeU32 bo 0 ++ writeU32 bo block_descriptors.length, 8⟩ := by
    rw [WBuf.write_append _ _ (by simp [writeU32, intToBytes_length])]
    simp [writeU32, intToBytes_length]
  have h8 : (writeU32 bo 0 ++ writeU32 bo block_descriptors.length).length = 8 := by
    simp [writeU32, intToBytes_length]
  simp only [serializeBlockAllocationTable, WBuf.position]
  rw [hw0, hw1]
  set r := writeDescriptorsLoop bo
    ⟨writeU32 bo 0 ++ writeU32 bo block_descriptors.length, 8⟩ [] block_descriptors
    with hr
  obtain ⟨d1, d2, d3, d4, d5⟩ := writeDescriptorsLoop_spec bo block_descriptors
    ⟨writeU32 bo 0 ++ writeU32 bo block_descriptors.length, 8⟩ [] h8.symm
    (by intro k o hko; simp [pyLookup] at hko)
  rw [← hr] at d1 d2 d3 d4 d5
  have hrlen : r.1.data.length =
      8 + (block_descriptors.map fun nd => descriptorNBytes nd.2).sum := by
    rw [d1]
    simp only [List.length_append, h8, List.length_flatten, List.map_map]
    congr 1
    congr 1
    apply List.map_congr_left
    intro nd _
    exact dataBlockDescriptorBytes_length bo nd.2
  obtain ⟨p1, p2⟩ := patchPositionsLoop_spec bo r.2 r.1.data.length
    block_descriptors r.1 (bat_offset + r.1.pos) [] rfl
    (by
      intro k o hko
      have := d4 k o hko
      rw [d2] at this
      omega)
    (fun k hk => d5 k (Or.inl hk)) hnd (by simp)
  set q := patchPositionsLoop bo r.2 r.1 (bat_offset + r.1.pos) []
    block_descriptors with hq
  have hqlen : ((q.1.seek 0).write (writeU32 bo (r.1.pos - 8))).data.length =
      8 + (block_descriptors.map fun nd => descriptorNBytes nd.2).sum := by
    rw [WBuf.seek_zero_write]
    simp only [List.length_append, List.length_drop, writeU32, intToBytes_length]
    rw [p1, hrlen]
    omega
  refine ⟨?_, hqlen, ?_⟩
  · rw [p2]
    simp only [List.nil_append]
    rw [hqlen]
    congr 1
    rw [d2, hrlen]
  · rw [WBuf.seek_zero_write]
    have htake : ((writeU32 bo (r.1.pos - 8) ++
        q.1.data.drop (writeU32 bo (r.1.pos - 8)).length).take 4) =
        writeU32 bo (r.1.pos - 8) := by
      rw [List.take_append_of_le_length (by simp [writeU32, intToBytes_length])]
      simp [writeU32, List.take_of_length_le, intToBytes_length]
    rw [htake]
    have hpos : r.1.pos =
        8 + (block_descriptors.map fun nd => descriptorNBytes nd.2).sum := by
      rw [d2, hrlen]
    simp only [writeU32]
    rw [intFromBytes_intToBytes_u32]
    simp only [List.length_append, List.length_drop, intToBytes_length]
    rw [p1, hrlen, hpos]
    omega

/-- UTF-8 bytes of "main_header". -/
def strMainHeader : Str := [109, 97, 105, 110, 95, 104, 101, 97, 100, 101, 114]

/-- Witness for C2 at a single concrete descriptor (the builder's
`("", "main_header")` block with a 10-byte payload) and `bat_offset = 26`. -/
theorem serializeBAT_layout_witness :
    (serializeBlockAllocationTable Byteorder.little
        [(([], strMainHeader),
          ⟨.regular, ([], strMainHeader), 0, 10, false⟩)] 26).2 =
      amendedPositions
        (26 + (serializeBlockAllocationTable Byteorder.little
          [(([], strMainHeader),
            ⟨.regular, ([], strMainHeader), 0, 10, false⟩)] 26).1.length)
        [(([], strMainHeader),
          ⟨.regular, ([], strMainHeader), 0, 10, false⟩)] :=
  (serializeBAT_layout Byteorder.little
    [(([], strMainHeader), ⟨.regular, ([], strMainHeader), 0, 10, false⟩)] 26
    (by decide) (by decide)).1

/-- Modelled from the spec: `LowLevelSqw.read_u64` (§4.A fixed-width reads),
symmetric to the in-source `read_u32` (same `int.from_bytes` pattern, no
truncation check). -/
def LowLevelSqw.read_u64 (io : LowLevelSqw) : Nat × LowLevelSqw :=
  let r := io.file.read 8
  (intFromBytes io.byteorder r.1, { io with file := r.2 })

/-- `_read_data_block_descriptor` (`src/sqomega/_sqw.py` lines 159-167):
block type string (unknown values raise `ValueError` in the enum constructor),
two name strings, `u64` position, `u32` size, `u32` locked flag compared
against 1. -/
def readDataBlockDescriptor (io : LowLevelSqw) :
    Except ReadExc (SqwDataBlockDescriptor × LowLevelSqw) :=
  match io.read_char_array with
  | .error e => .error e
  | .ok (bt, io1) =>
    match SqwDataBlockType.ofValue bt with
    | none => .error ⟨.valueError, none⟩
    | some block_type =>
      match io1.read_char_array with
      | .error e => .error e
      | .ok (n1, io2) =>
        match io2.read_char_array with
        | .error e => .error e
        | .ok (n2, io3) =>
          let rp := io3.read_u64
          let rs := rp.2.read_u32
          let rl := rs.2.read_u32
          .ok (⟨block_type, (n1, n2), rp.1, rs.1, rl.1 = 1⟩, rl.2)

/-- The generator expression in `_read_block_allocation_table`: read `n`
consecutive descriptors. -/
def readDescriptors : Nat → LowLevelSqw →
    Except ReadExc (List SqwDataBlockDescriptor × LowLevelSqw)
  | 0, io => .ok ([], io)
  | n + 1, io =>
    match readDataBlockDescriptor io with
    | .error e => .error e
    | .ok (d, io1) =>
      match readDescriptors n io1 with
      | .error e => .error e
      | .ok (ds, io2) => .ok (d :: ds, io2)

/-- `_read_block_allocation_table` (`src/sqomega/_sqw.py` lines 150-156):
consume `bat_size` (discarded), then `n_blocks`, then the descriptors, and
build the name-keyed dict `{descriptor.name: descriptor for ...}` — duplicate
names silently collapse to the last occurrence. -/
def readBlockAllocationTable (io : LowLevelSqw) :
    Except ReadExc (List (DataBlockName × SqwDataBlockDescriptor) × LowLevelSqw) :=
  let rb := io.read_u32
  let rn := rb.2.read_u32
  match readDescriptors rn.1 rn.2 with
  | .error e => .error e
  | .ok (ds, io2) => .ok (pyDictOf (ds.map fun d => (d.name, d)), io2)

/-- Well-formedness of a descriptor for serialization round trips: names are
valid UTF-8, name lengths fit a `u32`, the position fits a `u64` and the size
fits a `u32`. -/
def descriptorWF (d : SqwDataBlockDescriptor) : Prop :=
  utf8Valid d.name.1 = true ∧ utf8Valid d.name.2 = true ∧
    d.name.1.length < 2 ^ 32 ∧ d.name.2.length < 2 ^ 32 ∧
    d.position < 2 ^ 64 ∧ d.size < 2 ^ 32

instance (d : SqwDataBlockDescriptor) : Decidable (descriptorWF d) := by
  unfold descriptorWF
  infer_instance

theorem read_u32_at (bo : Byteorder) (p : Option String) (A B : List Nat) (n : Nat) :
    LowLevelSqw.read_u32 ⟨⟨A ++ (writeU32 bo n ++ B), A.length⟩, bo, p⟩ =
      (n % 2 ^ 32, ⟨⟨A ++ (writeU32 bo n ++ B), A.length + 4⟩, bo, p⟩) := by
  simp only [LowLevelSqw.read_u32, RStream.read, List.drop_left]
  rw [List.take_append_of_le_length (by simp [writeU32, intToBytes_length])]
  rw [List.take_of_length_le (by simp [writeU32, intToBytes_length])]
  simp only [writeU32]
  rw [intFromBytes_intToBytes_u32]
  simp [intToBytes_length]

theorem read_u64_at (bo : Byteorder) (p : Option String) (A B : List Nat) (n : Nat) :
    LowLevelSqw.read_u64 ⟨⟨A ++ (writeU64 bo n ++ B), A.length⟩, bo, p⟩ =
      (n % 2 ^ 64, ⟨⟨A ++ (writeU64 bo n ++ B), A.length + 8⟩, bo, p⟩) := by
  simp only [LowLevelSqw.read_u64, RStream.read, List.drop_left]
  rw [List.take_append_of_le_length (by simp [writeU64, intToBytes_length])]
  rw [List.take_of_length_le (by simp [writeU64, intToBytes_length])]
  simp only [writeU64]
  rw [intFromBytes_intToBytes_u64]
  simp [intToBytes_length]

theorem read_char_array_at (bo : Byteorder) (p : Option String) (A B : List Nat)
    (s : Str) (hv : utf8Valid s = true) (hl : s.length < 2 ^ 32) :
    LowLevelSqw.read_char_array ⟨⟨A ++ (writeCharArray bo s ++ B), A.length⟩, bo, p⟩ =
      .ok (s, ⟨⟨A ++ (writeCharArray bo s ++ B), A.length + 4 + s.length⟩, bo, p⟩) := by
  simp only [LowLevelSqw.read_char_array]
  have hrw : A ++ (writeCharArray bo s ++ B) =
      A ++ (writeU32 bo s.length ++ (writeChars s ++ B)) := by
    simp [writeCharArray, List.append_assoc]
  rw [hrw, read_u32_at bo p A (writeChars s ++ B) s.length]
  have hmod : s.length % 2 ^ 32 = s.length := Nat.mod_eq_of_lt hl
  rw [hmod]
  have hA4 : A.length + 4 = (A ++ writeU32 bo s.length).length := by
    simp [writeU32, intToBytes_length]
  have hassoc : A ++ (writeU32 bo s.length ++ (writeChars s ++ B)) =
      (A ++ writeU32 bo s.length) ++ (writeChars s ++ B) := by
    simp [List.append_assoc]
  rw [hA4, hassoc]
  simp only [RStream.read, List.drop_left]
  rw [List.take_append_of_le_length (by simp [writeChars])]
  rw [List.take_of_length_le (by simp [writeChars])]
  simp only [writeChars, hv, if_true]

theorem blockType_ofValue_value (bt : SqwDataBlockType) :
    SqwDataBlockType.ofValue bt.value = some bt := by
  cases bt <;> decide

theorem readDataBlockDescriptor_at (bo : Byteorder) (p : Option String)
    (A B : List Nat) (d : SqwDataBlockDescriptor) (hwf : descriptorWF d) :
    readDataBlockDescriptor ⟨⟨A ++ (dataBlockDescriptorBytes bo d ++ B), A.length⟩, bo, p⟩ =
      .ok (d, ⟨⟨A ++ (dataBlockDescriptorBytes bo d ++ B),
        A.length + descriptorNBytes d⟩, bo, p⟩) := by
  obtain ⟨hv1, hv2, hl1, hl2, hp, hs⟩ := hwf
  simp only [readDataBlockDescriptor]
  have h0 : A ++ (dataBlockDescriptorBytes bo d ++ B) =
      A ++ (writeCharArray bo d.block_type.value ++
        (writeCharArray bo d.name.1 ++ (writeCharArray bo d.name.2 ++
          (writeU64 bo d.position ++ (writeU32 bo d.size ++
            (writeU32 bo (if d.locked then 1 else 0) ++ B)))))) := by
    simp [dataBlockDescriptorBytes, List.append_assoc]
  rw [h0]
  have hbt : utf8Valid d.block_type.value = true ∧
      d.block_type.value.length < 2 ^ 32 := by
    cases d.block_type <;> exact ⟨by decide, by decide⟩
  simp only [read_char_array_at bo p A _ d.block_type.value hbt.1 hbt.2]
  simp only [blockType_ofValue_value]
  have e1 : A.length + 4 + d.block_type.value.length =
      (A ++ writeCharArray bo d.block_type.value).length := by
    simp [writeCharArray_length]
    omega
  rw [e1, show A ++ (writeCharArray bo d.block_type.value ++
      (writeCharArray bo d.name.1 ++ (writeCharArray bo d.name.2 ++
        (writeU64 bo d.position ++ (writeU32 bo d.size ++
          (writeU32 bo (if d.locked then 1 else 0) ++ B)))))) =
      (A ++ writeCharArray bo d.block_type.value) ++
        (writeCharArray bo d.name.1 ++ (writeCharArray bo d.name.2 ++
          (writeU64 bo d.position ++ (writeU32 bo d.size ++
            (writeU32 bo (if d.locked then 1 else 0) ++ B)))))
    from by simp [List.append_assoc]]
  simp only [read_char_array_at bo p _ _ d.name.1 hv1 hl1]
  have e2 : (A ++ writeCharArray bo d.block_type.value).length + 4 + d.name.1.length =
      ((A ++ writeCharArray bo d.block_type.value) ++ writeCharArray bo d.name.1).length := by
    simp [writeCharArray_length]
    omega
  rw [e2, show (A ++ writeCharArray bo d.block_type.value) ++
      (writeCharArray bo d.name.1 ++ (writeCharArray bo d.name.2 ++
        (writeU64 bo d.position ++ (writeU32 bo d.size ++
          (writeU32 bo (if d.locked then 1 else 0) ++ B))))) =
      ((A ++ writeCharArray bo d.block_type.value) ++ writeCharArray bo d.name.1) ++
        (writeCharArray bo d.name.2 ++ (writeU64 bo d.position ++
          (writeU32 bo d.size ++ (writeU32 bo (if d.locked then 1 else 0) ++ B))))
    from by simp [List.append_assoc]]
  simp only [read_char_array_at bo p _ _ d.name.2 hv2 hl2]
  have e3 : ((A ++ writeCharArray bo d.block_type.value) ++
      writeCharArray bo d.name.1).length + 4 + d.name.2.length =
      (((A ++ writeCharArray bo d.block_type.value) ++ writeCharArray bo d.name.1) ++
        writeCharArray bo d.name.2).length := by
    simp [writeCharArray_length]
    omega
  rw [e3, show ((A ++ writeCharArray bo d.block_type.value) ++
      writeCharArray bo d.name.1) ++ (writeCharArray bo d.name.2 ++
        (writeU64 bo d.position ++ (writeU32 bo d.size ++
          (writeU32 bo (if d.locked then 1 else 0) ++ B)))) =
      (((A ++ writeCharArray bo d.block_type.value) ++ writeCharArray bo d.name.1) ++
        writeCharArray bo d.name.2) ++ (writeU64 bo d.position ++
          (writeU32 bo d.size ++ (writeU32 bo (if d.locked then 1 else 0) ++ B)))
    from by simp [List.append_assoc]]
  simp only [read_u64_at]
  have e4 : (((A ++ writeCharArray bo d.block_type.value) ++
      writeCharArray bo d.name.1) ++ writeCharArray bo d.name.2).length + 8 =
      ((((A ++ writeCharArray bo d.block_type.value) ++ writeCharArray bo d.name.1) ++
        writeCharArray bo d.name.2) ++ writeU64 bo d.position).length := by
    simp [writeU64, intToBytes_length]
    omega
  rw [e4, show (((A ++ writeCharArray bo d.block_type.value) ++
      writeCharArray bo d.name.1) ++ writeCharArray bo d.name.2) ++
        (writeU64 bo d.position ++ (writeU32 bo d.size ++
          (writeU32 bo (if d.locked then 1 else 0) ++ B))) =
      ((((A ++ writeCharArray bo d.block_type.value) ++ writeCharArray bo d.name.1) ++
        writeCharArray bo d.name.2) ++ writeU64 bo d.position) ++
          (writeU32 bo d.size ++ (writeU32 bo (if d.locked then 1 else 0) ++ B))
    from by simp [List.append_assoc]]
  simp only [read_u32_at]
  have e5 : ((((A ++ writeCharArray bo d.block_type.value) ++
      writeCharArray bo d.name.1) ++ writeCharArray bo d.name.2) ++
        writeU64 bo d.position).length + 4 =
      (((((A ++ writeCharArray bo d.block_type.value) ++ writeCharArray bo d.name.1) ++
        writeCharArray bo d.name.2) ++ writeU64 bo d.position) ++
          writeU32 bo d.size).length := by
    simp [writeU32, intToBytes_length]
    omega
  rw [e5, show ((((A ++ writeCharArray bo d.block_type.value) ++
      writeCharArray bo d.name.1) ++ writeCharArray bo d.name.2) ++
        writeU64 bo d.position) ++ (writeU32 bo d.size ++
          (writeU32 bo (if d.locked then 1 else 0) ++ B)) =
      (((((A ++ writeCharArray bo d.block_type.value) ++ writeCharArray bo d.name.1) ++
        writeCharArray bo d.name.2) ++ writeU64 bo d.position) ++
          writeU32 bo d.size) ++ (writeU32 bo (if d.locked then 1 else 0) ++ B)
    from by simp [List.append_assoc]]
  simp only [read_u32_at]
  have hlk : (((if d.locked then 1 else 0) % 2 ^ 32 = 1)) = (d.locked = true) := by
    cases d.locked <;> simp
  refine congrArg Except.ok (congrArg₂ Prod.mk ?_ ?_)
  · rw [Nat.mod_eq_of_lt hp, Nat.mod_eq_of_lt hs]
    cases d with
    | mk bt nm pos sz lk =>
      simp only
      cases lk <;> simp
  · have hlen : (A ++ writeCharArray bo d.block_type.value ++
        writeCharArray bo d.name.1 ++ writeCharArray bo d.name.2 ++
          writeU64 bo d.position ++ writeU32 bo d.size).length + 4 =
        A.length + descriptorNBytes d := by
      simp [writeCharArray_length, writeU64, writeU32, intToBytes_length,
        descriptorNBytes]
      omega
    rw [hlen]

theorem readDescriptors_at (bo : Byteorder) (p : Option String)
    (ds : List SqwDataBlockDescriptor) :
    ∀ (A B : List Nat), (∀ d ∈ ds, descriptorWF d) →
    readDescriptors ds.length
        ⟨⟨A ++ ((ds.map (dataBlockDescriptorBytes bo)).flatten ++ B), A.length⟩, bo, p⟩ =
      .ok (ds, ⟨⟨A ++ ((ds.map (dataBlockDescriptorBytes bo)).flatten ++ B),
        A.length + (ds.map descriptorNBytes).sum⟩, bo, p⟩) := by
  induction ds with
  | nil =>
    intro A B _
    simp [readDescriptors]
  | cons d tail ih =>
    intro A B hwf
    have hd := hwf d (by simp)
    have hassoc : A ++ (((d :: tail).map (dataBlockDescriptorBytes bo)).flatten ++ B) =
        A ++ (dataBlockDescriptorBytes bo d ++
          ((tail.map (dataBlockDescriptorBytes bo)).flatten ++ B)) := by
      simp [List.append_assoc]
    rw [List.length_cons, hassoc]
    simp only [readDescriptors]
    simp only [readDataBlockDescriptor_at bo p A _ d hd]
    have hA2 : A.length + descriptorNBytes d =
        (A ++ dataBlockDescriptorBytes bo d).length := by
      simp [dataBlockDescriptorBytes_length]
    rw [hA2, show A ++ (dataBlockDescriptorBytes bo d ++
        ((tail.map (dataBlockDescriptorBytes bo)).flatten ++ B)) =
      (A ++ dataBlockDescriptorBytes bo d) ++
        ((tail.map (dataBlockDescriptorBytes bo)).flatten ++ B)
      from by simp [List.append_assoc]]
    simp only [ih (A ++ dataBlockDescriptorBytes bo d) B
      (fun x hx => hwf x (by simp [hx]))]
    have hpe : (A ++ dataBlockDescriptorBytes bo d).length +
        (tail.map descriptorNBytes).sum =
        A.length + ((d :: tail).map descriptorNBytes).sum := by
      simp [dataBlockDescriptorBytes_length]
      omega
    rw [hpe]

theorem find?_map_eq {α β : Type} (f : α → β) (p : β → Bool) (l : List α) :
    (l.map f).find? p = (l.find? (fun a => p (f a))).map f := by
  induction l with
  | nil => rfl
  | cons x t ih =>
    simp only [List.map_cons, List.find?_cons]
    rcases hx : p (f x) with _ | _ <;> simp [hx, ih]

/-- C10: reading a block allocation table that contains several descriptors
with the same name succeeds with no error; the in-memory table maps each name
to the last descriptor with that name in file order, lists every name exactly
once (`data_block_names` iterates these keys), and `read_data_block` on a
duplicated name therefore seeks the last descriptor's position.  The table is
the dict comprehension `{d.name: d for d in descriptors}`. -/
theorem readBlockAllocationTable_at (bo : Byteorder) (p : Option String)
    (A B : List Nat) (bsz : Nat) (ds : List SqwDataBlockDescriptor)
    (hwf : ∀ d ∈ ds, descriptorWF d) (hn : ds.length < 2 ^ 32) :
    readBlockAllocationTable
        ⟨⟨A ++ (writeU32 bo bsz ++ (writeU32 bo ds.length ++
          ((ds.map (dataBlockDescriptorBytes bo)).flatten ++ B))), A.length⟩, bo, p⟩ =
      .ok (pyDictOf (ds.map fun d => (d.name, d)),
        ⟨⟨A ++ (writeU32 bo bsz ++ (writeU32 bo ds.length ++
          ((ds.map (dataBlockDescriptorBytes bo)).flatten ++ B))),
          A.length + 8 + (ds.map descriptorNBytes).sum⟩, bo, p⟩) := by
  simp only [readBlockAllocationTable]
  simp only [read_u32_at bo p A _ bsz]
  rw [show A.length + 4 = (A ++ writeU32 bo bsz).length from by
    simp [writeU32, intToBytes_length]]
  rw [show A ++ (writeU32 bo bsz ++ (writeU32 bo ds.length ++
      ((ds.map (dataBlockDescriptorBytes bo)).flatten ++ B))) =
    (A ++ writeU32 bo bsz) ++ (writeU32 bo ds.length ++
      ((ds.map (dataBlockDescriptorBytes bo)).flatten ++ B))
    from by simp [List.append_assoc]]
  simp only [read_u32_at bo p (A ++ writeU32 bo bsz) _ ds.length]
  rw [Nat.mod_eq_of_lt hn]
  rw [show (A ++ writeU32 bo bsz).length + 4 =
    ((A ++ writeU32 bo bsz) ++ writeU32 bo ds.length).length from by
      simp [writeU32, intToBytes_length]]
  rw [show (A ++ writeU32 bo bsz) ++ (writeU32 bo ds.length ++
      ((ds.map (dataBlockDescriptorBytes bo)).flatten ++ B)) =
    ((A ++ writeU32 bo bsz) ++ writeU32 bo ds.length) ++
      ((ds.map (dataBlockDescriptorBytes bo)).flatten ++ B)
    from by simp [List.append_assoc]]
  simp only [readDescriptors_at bo p ds _ B hwf]
  have hpe : ((A ++ writeU32 bo bsz) ++ writeU32 bo ds.length).length +
      (ds.map descriptorNBytes).sum =
      A.length + 8 + (ds.map descriptorNBytes).sum := by
    simp [writeU32, intToBytes_length]
  rw [hpe]

theorem pyLookup_table_last (ds : List SqwDataBlockDescriptor) (nm : DataBlockName) :
    pyLookup (pyDictOf (ds.map fun d => (d.name, d))) nm =
      ds.reverse.find? (fun d => d.name = nm) := by
  rw [pyLookup_pyDictOf_last]
  rw [show (ds.map fun d => (d.name, d)).reverse =
    ds.reverse.map fun d => (d.name, d) from by simp]
  rw [find?_map_eq]
  simp only [Option.map_map]
  rw [show (Prod.snd ∘ fun d : SqwDataBlockDescriptor => (d.name, d)) = id
    from rfl]
  simp

/-- C10: reading a block allocation table that contains several descriptors
with the same name succeeds with no error; the in-memory table maps each name
to the last descriptor with that name in file order, lists every name exactly
once (`data_block_names` iterates these keys), and `read_data_block` on a
duplicated name therefore seeks the last descriptor's position.  The table is
the dict comprehension `{d.name: d for d in descriptors}`. -/
theorem readBAT_collapses_duplicates (bo : Byteorder) (p : Option String)
    (A B : List Nat) (bsz : Nat) (ds : List SqwDataBlockDescriptor)
    (hwf : ∀ d ∈ ds, descriptorWF d) (hn : ds.length < 2 ^ 32) :
    readBlockAllocationTable
        ⟨⟨A ++ (writeU32 bo bsz ++ (writeU32 bo ds.length ++
          ((ds.map (dataBlockDescriptorBytes bo)).flatten ++ B))), A.length⟩, bo, p⟩ =
      .ok (pyDictOf (ds.map fun d => (d.name, d)),
        ⟨⟨A ++ (writeU32 bo bsz ++ (writeU32 bo ds.length ++
          ((ds.map (dataBlockDescriptorBytes bo)).flatten ++ B))),
          A.length + 8 + (ds.map descriptorNBytes).sum⟩, bo, p⟩) ∧
    (∀ nm, pyLookup (pyDictOf (ds.map fun d => (d.name, d))) nm =
      ds.reverse.find? (fun d => d.name = nm)) ∧
    ((pyDictOf (ds.map fun d => (d.name, d))).map Prod.fst).Nodup ∧
    (∀ nm, nm ∈ (pyDictOf (ds.map fun d => (d.name, d))).map Prod.fst ↔
      nm ∈ ds.map SqwDataBlockDescriptor.name) := by
  refine ⟨readBlockAllocationTable_at bo p A B bsz ds hwf hn,
    pyLookup_table_last ds, keys_pyDictOf_nodup _, ?_⟩
  intro nm
  rw [mem_keys_pyDictOf]
  simp [List.map_map]

/-- Witness for C10 at a concrete BAT holding two descriptors that share the
name `("", "a")`: the in-memory table maps that name to the second (last)
descriptor. -/
theorem readBAT_collapses_duplicates_witness :
    pyLookup (pyDictOf
      ([⟨SqwDataBlockType.regular, ([], [97]), 100, 5, false⟩,
        ⟨SqwDataBlockType.regular, ([], [97]), 200, 7, false⟩].map
          (fun d : SqwDataBlockDescriptor => (d.name, d)))) ([], [97]) =
      some ⟨SqwDataBlockType.regular, ([], [97]), 200, 7, false⟩ := by
  have h := (readBAT_collapses_duplicates Byteorder.little none [] [] 0
    [⟨SqwDataBlockType.regular, ([], [97]), 100, 5, false⟩,
     ⟨SqwDataBlockType.regular, ([], [97]), 200, 7, false⟩]
    (by decide) (by decide)).2.1 ([], [97])
  rw [h]
  decide

/-- Numeric decoding of a type tag (`TypeTag(value)`); `none` models the
`ValueError` for a gap value. -/
def TypeTag.ofVal (n : Nat) : Option TypeTag :=
  match n with
  | 0 => some .logical
  | 1 => some .char
  | 3 => some .f64
  | 4 => some .f32
  | 5 => some .i8
  | 6 => some .u8
  | 9 => some .i32
  | 10 => some .u32
  | 11 => some .i64
  | 12 => some .u64
  | 23 => some .cell
  | 24 => some .struct
  | 32 => some .serializable
  | _ => none

/-- Modelled from the spec: `LowLevelSqw.read_u8` (§4.A), same
`int.from_bytes` pattern as the in-source `read_u32`. -/
def LowLevelSqw.read_u8 (io : LowLevelSqw) : Nat × LowLevelSqw :=
  let r := io.file.read 1
  (intFromBytes io.byteorder r.1, { io with file := r.2 })

/-- Modelled from the spec: `LowLevelSqw.read_n_chars` (§4.A character data
without a length prefix), same read-and-decode pattern as the in-source
`read_char_array`; malformed UTF-8 is an annotated `Encoding` failure. -/
def LowLevelSqw.read_n_chars (io : LowLevelSqw) (n : Nat) :
    Except ReadExc (Str × LowLevelSqw) :=
  let r := io.file.read n
  let io2 : LowLevelSqw := { io with file := r.2 }
  if utf8Valid r.1 then .ok (r.1, io2)
  else .error ⟨.unicodeDecodeError, some ⟨"char array", io.pathPiece, io2.position⟩⟩

/-- Modelled from the spec: `LowLevelSqw.read_logical` (§4.A logical), one
byte; the empty read at EOF fails. -/
def LowLevelSqw.read_logical (io : LowLevelSqw) :
    Except ReadExc (Bool × LowLevelSqw) :=
  let r := io.file.read 1
  match r.1 with
  | [] => .error ⟨.indexError, none⟩
  | b :: _ => .ok (b ≠ 0, { io with file := r.2 })

/-- Modelled from the spec: the f64 branch of `LowLevelSqw.read_array`
(§4.A typed multi-dim array read): `count` contiguous binary64 values; a
short stream fails. -/
def readF64Elems : Nat → LowLevelSqw → Except ReadExc (List IRObject × LowLevelSqw)
  | 0, io => .ok ([], io)
  | n + 1, io =>
    let r := io.file.read 8
    if r.1.length = 8 then
      match readF64Elems n { io with file := r.2 } with
      | .error e => .error e
      | .ok (rest, io2) => .ok (.f64 (intFromBytes io.byteorder r.1) :: rest, io2)
    else .error ⟨.valueError, none⟩

/-- The product of a shape (`_volume` in `src/sqomega/_read_write.py`). -/
def shapeVolume (shape : List Nat) : Nat := shape.foldl (fun a b => a * b) 1

/-- The loop of `_read_char_arrays` (`src/sqomega/_read_write.py` lines
80-85): `count` strings of `len` bytes each. -/
def readCharElems (len : Nat) : Nat → LowLevelSqw →
    Except ReadExc (List IRObject × LowLevelSqw)
  | 0, io => .ok ([], io)
  | n + 1, io =>
    match io.read_n_chars len with
    | .error e => .error e
    | .ok (s, io1) =>
      match readCharElems len n io1 with
      | .error e => .error e
      | .ok (rest, io2) => .ok (.string s :: rest, io2)

/-- The loop of `_read_logical` (lines 156-158). -/
def readLogicalElems : Nat → LowLevelSqw →
    Except ReadExc (List IRObject × LowLevelSqw)
  | 0, io => .ok ([], io)
  | n + 1, io =>
    match io.read_logical with
    | .error e => .error e
    | .ok (b, io1) =>
      match readLogicalElems n io1 with
      | .error e => .error e
      | .ok (rest, io2) => .ok (.logical b :: rest, io2)

/-- The shape loop of `read_object_array`: `n_dims` `u32` values. -/
def readShape : Nat → LowLevelSqw → List Nat × LowLevelSqw
  | 0, io => ([], io)
  | n + 1, io =>
    let r := io.read_u32
    let rest := readShape n r.2
    (r.1 :: rest.1, rest.2)

/-- The field-name loop of `_read_single_struct`. -/
def readFieldNames : List Nat → LowLevelSqw →
    Except ReadExc (List Str × LowLevelSqw)
  | [], io => .ok ([], io)
  | sz :: rest, io =>
    match io.read_n_chars sz with
    | .error e => .error e
    | .ok (nm, io1) =>
      match readFieldNames rest io1 with
      | .error e => .error e
      | .ok (nms, io2) => .ok (nm :: nms, io2)

mutual
/-- `read_object_array` (`src/sqomega/_read_write.py` lines 49-64), with an
explicit fuel argument standing in for the recursion that Python bounds only
through end-of-stream failures.  The tag `serializable` recurses without a
shape; unknown tag values raise `ValueError` (either in `TypeTag(...)` or in
the reader-registry lookup; registered readers: char, cell, struct, f64,
logical). -/
def readObjectArrayF : Nat → LowLevelSqw → Except ReadExc (IRArrayVal × LowLevelSqw)
  | 0, _ => .error ⟨.fuelExhausted, none⟩
  | fuel + 1, io =>
    let rt := io.read_u8
    match TypeTag.ofVal rt.1 with
    | none => .error ⟨.valueError, none⟩
    | some .serializable => readObjectArrayF fuel rt.2
    | some ty =>
      let rn := rt.2.read_u8
      let rsh := readShape rn.1 rn.2
      match ty with
      | .char =>
        match rsh.1 with
        | [] => .ok (.obj ⟨.char, [], [.string []]⟩, rsh.2)
        | len :: restShape =>
          match readCharElems len (shapeVolume restShape) rsh.2 with
          | .error e => .error e
          | .ok (data, io2) => .ok (.obj ⟨.char, len :: restShape, data⟩, io2)
      | .f64 =>
        match readF64Elems (shapeVolume rsh.1) rsh.2 with
        | .error e => .error e
        | .ok (data, io2) => .ok (.obj ⟨.f64, rsh.1, data⟩, io2)
      | .logical =>
        match readLogicalElems (shapeVolume rsh.1) rsh.2 with
        | .error e => .error e
        | .ok (data, io2) => .ok (.obj ⟨.logical, rsh.1, data⟩, io2)
      | .cell =>
        match readCellItems fuel (shapeVolume rsh.1) rsh.2 with
        | .error e => .error e
        | .ok (items, io2) => .ok (.cell ⟨rsh.1, items⟩, io2)
      | .struct =>
        match readStructElems fuel (shapeVolume rsh.1) rsh.2 with
        | .error e => .error e
        | .ok (ss, io2) => .ok (.obj ⟨.struct, rsh.1, ss⟩, io2)
      | _ => .error ⟨.valueError, none⟩
termination_by fuel _ => (fuel, 0)

/-- The loop of `_read_cell` (lines 95-97). -/
def readCellItems : Nat → Nat → LowLevelSqw →
    Except ReadExc (List IRObjectArray × LowLevelSqw)
  | _, 0, io => .ok ([], io)
  | fuel, n + 1, io =>
    match readObjectArrayF fuel io with
    | .error e => .error e
    | .ok (.cell _, _) => .error ⟨.typeError, none⟩
    | .ok (.obj oa, io1) =>
      match readCellItems fuel n io1 with
      | .error e => .error e
      | .ok (rest, io2) => .ok (oa :: rest, io2)
termination_by fuel n _ => (fuel, n + 1)

/-- The loop of `_read_struct` (lines 107-109). -/
def readStructElems : Nat → Nat → LowLevelSqw →
    Except ReadExc (List IRObject × LowLevelSqw)
  | _, 0, io => .ok ([], io)
  | fuel, n + 1, io =>
    match readSingleStruct fuel io with
    | .error e => .error e
    | .ok (s, io1) =>
      match readStructElems fuel n io1 with
      | .error e => .error e
      | .ok (rest, io2) => .ok (.struct s :: rest, io2)
termination_by fuel n _ => (fuel, 2 * n + 2)

/-- `_read_single_struct` (lines 112-117): field count, name lengths, names,
then the field values, which `_expect_ty` requires to be a cell array
(`TypeError` otherwise). -/
def readSingleStruct (fuel : Nat) (io : LowLevelSqw) :
    Except ReadExc (IRStruct × LowLevelSqw) :=
  let rn := io.read_u32
  let rsz := readShape rn.1 rn.2
  match readFieldNames rsz.1 rsz.2 with
  | .error e => .error e
  | .ok (names, io1) =>
    match readObjectArrayF fuel io1 with
    | .error e => .error e
    | .ok (.cell c, io2) => .ok (⟨names, c⟩, io2)
    | .ok (.obj _, _) => .error ⟨.typeError, none⟩
termination_by (fuel, 1)

end

/-- `read_object_array` as called by `read_data_block`: the fuel
`stream length + 1` dominates the number of tag bytes any parse can consume. -/
def readObjectArray (io : LowLevelSqw) : Except ReadExc (IRArrayVal × LowLevelSqw) :=
  readObjectArrayF (io.file.data.length + 1) io

/-- UTF-8 bytes of "horace". -/
def strHorace : Str := [104, 111, 114, 97, 99, 101]

/-- `SqwFileType` (`src/sqomega/_models.py` lines 19-21). -/
inductive SqwFileType where
  | DND
  | SQW
deriving DecidableEq, Repr

/-- Enum value of a file type. -/
def SqwFileType.val : SqwFileType → Nat
  | .DND => 0
  | .SQW => 1

/-- `SqwFileType(n)`; `none` models the `ValueError` for other values. -/
def SqwFileType.ofVal (n : Nat) : Option SqwFileType :=
  match n with
  | 0 => some .DND
  | 1 => some .SQW
  | _ => none

/-- `SqwFileHeader` (`src/sqomega/_models.py` lines 24-29); the program
version is carried as its binary64 bit pattern. -/
structure SqwFileHeader where
  prog_name : Str
  prog_version : Nat
  sqw_type : SqwFileType
  n_dims : Nat
deriving DecidableEq, Repr

/-- `_read_file_header` (`src/sqomega/_sqw.py` lines 129-147): program name
and version (warning when not horace 4.0), file type (warning when not SQW),
dimension count.  The second component collects the warnings emitted. -/
def readFileHeader (io : LowLevelSqw) :
    Except ReadExc ((SqwFileHeader × List String) × LowLevelSqw) :=
  match io.read_char_array with
  | .error e => .error e
  | .ok (prog_name, io1) =>
    match io1.read_f64 with
    | .error e => .error e
    | .ok (prog_version, io2) =>
      let warns1 : List String :=
        if prog_name ≠ strHorace ∨ prog_version ≠ floatBitsOfNat 4 then
          ["SQW program not supported"]
        else []
      let ru := io2.read_u32
      match SqwFileType.ofVal ru.1 with
      | none => .error ⟨.valueError, none⟩
      | some sqw_type =>
        let warns2 : List String :=
          if sqw_type ≠ SqwFileType.SQW then ["DND files are not supported"]
          else []
        let rn := ru.2.read_u32
        .ok ((⟨prog_name, prog_version, sqw_type, rn.1⟩, warns1 ++ warns2), rn.2)

/-- The reader handle produced by `Sqw.open`: the low-level reader (holding
the resolved byte order), the file header, the block allocation table, and
the warnings emitted while opening. -/
structure SqwHandle where
  sqw_io : LowLevelSqw
  file_header : SqwFileHeader
  table : List (DataBlockName × SqwDataBlockDescriptor)
  warnings : List String

/-- `Sqw.open` (`src/sqomega/_sqw.py` lines 53-74): deduce the byte order,
read the file header, materialize the block allocation table. -/
def sqwOpen (data : List Nat) (byteorder : Option Byteorder)
    (path : Option String) : Except ReadExc SqwHandle :=
  let det := deduceByteorder ⟨data, 0⟩ byteorder
  let io : LowLevelSqw := ⟨det.2, det.1, path⟩
  match readFileHeader io with
  | .error e => .error e
  | .ok ((hdr, warns), io1) =>
    match readBlockAllocationTable io1 with
    | .error e => .error e
    | .ok (table, io2) => .ok ⟨io2, hdr, table, warns⟩

/-- Modelled from the spec: the float32 branch of `LowLevelSqw.read_array`
used by `_read_pix_block` — `n_rows × n_pixels` binary32 values (carried as
bit patterns); a short stream fails. -/
def readF32Elems : Nat → LowLevelSqw → Except ReadExc (List Nat × LowLevelSqw)
  | 0, io => .ok ([], io)
  | n + 1, io =>
    let r := io.file.read 4
    if r.1.length = 4 then
      match readF32Elems n { io with file := r.2 } with
      | .error e => .error e
      | .ok (rest, io2) => .ok (intFromBytes io.byteorder r.1 :: rest, io2)
    else .error ⟨.valueError, none⟩

/-- `_read_pix_block` (`src/sqomega/_sqw.py` lines 382-385). -/
def readPixBlock (io : LowLevelSqw) :
    Except ReadExc ((Nat × Nat × List Nat) × LowLevelSqw) :=
  let rr := io.read_u32
  let rp := rr.2.read_u64
  match readF32Elems (rr.1 * rp.1) rp.2 with
  | .error e => .error e
  | .ok (vals, io2) => .ok ((rr.1, rp.1, vals), io2)

/-- The argument forms `read_data_block` accepts: a (two-element) tuple or a
plain string.  Python's structural match distinguishes them — a string never
matches the sequence pattern `(_, _)`. -/
inductive BlockNameArg where
  | tuple (n : Str × Str)
  | single (s : Str)

/-- `_normalize_data_block_name` (`src/sqomega/_sqw.py` lines 170-181):
a tuple with no second argument passes through; two strings pair up; every
other combination raises `TypeError`. -/
def normalizeDataBlockName (name : BlockNameArg) (level2_name : Option Str) :
    Except String (Str × Str) :=
  match name, level2_name with
  | .tuple n, none => .ok n
  | .single n1, some n2 => .ok (n1, n2)
  | _, _ =>
    .error "Data block name must be given either as a tuple of two strings or two separate strings"

/-- Exceptions out of `read_data_block`. -/
inductive SqwError where
  | typeError (msg : String)
  | keyError (name : DataBlockName)
  | readError (e : ReadExc)
  | parseError (e : ParseExc)
  | notImplemented
deriving Repr

/-- Values returned by `read_data_block`: a (possibly raw) regular block, or
a pixel block. -/
inductive BlockValue where
  | regular (v : ParseOutcome)
  | pix (n_rows : Nat) (n_pixels : Nat) (values : List Nat)

/-- `Sqw.read_data_block` (`src/sqomega/_sqw.py` lines 99-117): normalize the
name argument, look it up in the table (`KeyError` on a miss), seek to the
descriptor's position, then read and parse according to the block type.  The
second result component counts warnings emitted by `_parse_block`. -/
def readDataBlock (sqw : SqwHandle) (name : BlockNameArg)
    (level2_name : Option Str) : Except SqwError (BlockValue × Nat) :=
  match normalizeDataBlockName name level2_name with
  | .error m => .error (.typeError m)
  | .ok block_name =>
    match pyLookup sqw.table block_name with
    | none => .error (.keyError block_name)
    | some descriptor =>
      let io : LowLevelSqw :=
        { sqw.sqw_io with file := sqw.sqw_io.file.seek descriptor.position }
      match descriptor.block_type with
      | .regular =>
        match readObjectArray io with
        | .error e => .error (.readError e)
        | .ok (block, _) =>
          match parseBlock block with
          | .error e => .error (.parseError e)
          | .ok (outcome, nwarns) => .ok (.regular outcome, nwarns)
      | .pix =>
        match readPixBlock io with
        | .error e => .error (.readError e)
        | .ok (v, _) => .ok (.pix v.1 v.2.1 v.2.2, 0)
      | .dnd => .error .notImplemented

/-- C8: `read_data_block` treats a `(level1, level2)` tuple and two separate
strings identically, and every mixed form — a tuple plus an extra string, or
a single bare string with no second argument — fails with the `InvalidName`
`TypeError` regardless of the handle's table or stream, i.e. before any
lookup or I/O. -/
theorem readDataBlock_name_forms (sqw : SqwHandle) (n1 n2 : Str) :
    readDataBlock sqw (.tuple (n1, n2)) none =
      readDataBlock sqw (.single n1) (some n2) ∧
    (∀ t s, readDataBlock sqw (.tuple t) (some s) =
      .error (.typeError
        "Data block name must be given either as a tuple of two strings or two separate strings")) ∧
    (∀ s, readDataBlock sqw (.single s) none =
      .error (.typeError
        "Data block name must be given either as a tuple of two strings or two separate strings")) := by
  exact ⟨rfl, fun t s => rfl, fun s => rfl⟩

/-- UTF-8 bytes of "full_filename". -/
def strFullFilename : Str :=
  [102, 117, 108, 108, 95, 102, 105, 108, 101, 110, 97, 109, 101]

/-- UTF-8 bytes of "title". -/
def strTitle : Str := [116, 105, 116, 108, 101]

/-- UTF-8 bytes of "nfiles". -/
def strNfiles : Str := [110, 102, 105, 108, 101, 115]

/-- UTF-8 bytes of "creation_date". -/
def strCreationDate : Str :=
  [99, 114, 101, 97, 116, 105, 111, 110, 95, 100, 97, 116, 101]

/-- UTF-8 bytes of "creation_date_defined_privately". -/
def strCreationDateDefinedPrivately : Str :=
  [99, 114, 101, 97, 116, 105, 111, 110, 95, 100, 97, 116, 101, 95, 100, 101,
   102, 105, 110, 101, 100, 95, 112, 114, 105, 118, 97, 116, 101, 108, 121]

/-- `SqwMainHeader` (`src/sqomega/_models.py` lines 47-69). -/
structure SqwMainHeader where
  full_filename : Str
  title : Str
  nfiles : Nat
  creation_date : PyDatetime
deriving DecidableEq, Repr

/-- `SqwMainHeader._serialize_to_dict` (lines 57-66): the ordered field
dictionary (`nfiles` is converted to a float, the creation date stays a
datetime and is rendered by `_serialize_field`). -/
def SqwMainHeader.serializeToDict (h : SqwMainHeader) : List (Str × IRObject) :=
  [(strSerialName, .string strMainHeaderCl),
   (strVersion, .f64 (floatBitsOfNat 2)),
   (strFullFilename, .string h.full_filename),
   (strTitle, .string h.title),
   (strNfiles, .f64 (floatBitsOfNat h.nfiles)),
   (strCreationDate, .datetime h.creation_date),
   (strCreationDateDefinedPrivately, .logical false)]

/-- Keyword parameters accepted by `prepare_for_serialization` as defined in
the sources: none besides `self` — both the base method
(`src/sqomega/_ir.py` line 120) and the `SqwMainHeader` override
(`src/sqomega/_models.py` line 68) are declared `def prepare_for_serialization(self)`. -/
def prepareForSerializationParams : List String := []

/-- Keyword arguments passed by `SqwBuilder._prepare_data_blocks`
(`src/sqomega/_build.py` line 198):
`block.prepare_for_serialization(filepath=filepath, filename=filename)`. -/
def prepareCallKwargs : List String := ["filepath", "filename"]

/-- Python call semantics for the builder's prepare call on the main header:
a keyword argument the signature does not accept raises `TypeError` before
the body runs; otherwise the body stamps `creation_date = datetime.now(utc)`
(the current time is passed in as `now`). -/
def callPrepareForSerialization (h : SqwMainHeader) (now : PyDatetime)
    (kwargs : List String) : Except String SqwMainHeader :=
  if kwargs.all (fun k => prepareForSerializationParams.contains k) then
    .ok { h with creation_date := now }
  else
    .error "TypeError: prepare_for_serialization() got an unexpected keyword argument"

/-- `SqwBuilder._prepare_data_blocks` (`src/sqomega/_build.py` lines 195-200)
as written in the sources, applied to the always-registered main-header
block. -/
def prepareDataBlocksSrc (h : SqwMainHeader) (now : PyDatetime) :
    Except String SqwMainHeader :=
  callPrepareForSerialization h now prepareCallKwargs

/-- C7 (code bug): the builder calls
`prepare_for_serialization(filepath=..., filename=...)` on every block before
lowering, but the in-source signatures accept no such keyword arguments, so
the call raises `TypeError` for every builder state and the creation date is
never stamped; `create()` cannot finish.  The claim describes the intended
behavior (spec §4.D) which the repository's own tests rely on. -/
theorem prepareDataBlocks_type_error (h : SqwMainHeader) (now : PyDatetime) :
    prepareDataBlocksSrc h now =
      .error "TypeError: prepare_for_serialization() got an unexpected keyword argument" :=
  rfl

theorem read_f64_at (bo : Byteorder) (p : Option String) (A B : List Nat)
    (bits : Nat) :
    LowLevelSqw.read_f64 ⟨⟨A ++ (writeF64 bo bits ++ B), A.length⟩, bo, p⟩ =
      .ok (bits % 2 ^ 64,
        ⟨⟨A ++ (writeF64 bo bits ++ B), A.length + 8⟩, bo, p⟩) := by
  simp only [LowLevelSqw.read_f64, RStream.read, List.drop_left]
  rw [List.take_append_of_le_length (by simp [writeF64, intToBytes_length])]
  rw [List.take_of_length_le (by simp [writeF64, intToBytes_length])]
  rw [if_pos (by simp [writeF64, intToBytes_length])]
  simp only [writeF64]
  rw [intFromBytes_intToBytes_u64]
  simp [intToBytes_length]

theorem isoformatSeconds_length (d : PyDatetime) :
    d.isoformatSeconds.length = 25 := by
  simp [PyDatetime.isoformatSeconds, decDigits2, decDigits4]

/-- The serialized payload of the main-header data block: the struct lowered
by `serialize_to_ir`, wrapped by `to_object_array` and written by
`write_object_array` (the per-block buffer of `_serialize_data_blocks`,
`src/sqomega/_build.py` lines 165-174). -/
def mainHeaderPayload (bo : Byteorder) (h : SqwMainHeader) :
    Except String (List Nat) :=
  writeArrayVal bo (.obj (serializeToIR h.serializeToDict).toObjectArray)

/-- The fully expanded bytes of the serialized main-header block (the
normal form of `mainHeaderPayload`). -/
def mainHeaderPayloadBytes (bo : Byteorder) (h : SqwMainHeader) : List Nat :=
  writeU8 TypeTag.struct.val ++
    (writeU8 1 ++
    (writeU32 bo 1 ++
    (writeU32 bo 7 ++
    (writeU32 bo (List.length strSerialName) ++
    (writeU32 bo (List.length strVersion) ++
    (writeU32 bo (List.length strFullFilename) ++
    (writeU32 bo (List.length strTitle) ++
    (writeU32 bo (List.length strNfiles) ++
    (writeU32 bo (List.length strCreationDate) ++
    (writeU32 bo (List.length strCreationDateDefinedPrivately) ++
    (strSerialName ++
    (strVersion ++
    (strFullFilename ++
    (strTitle ++
    (strNfiles ++
    (strCreationDate ++
    (strCreationDateDefinedPrivately ++
    (writeU8 TypeTag.cell.val ++
    (writeU8 2 ++
    (writeU32 bo 7 ++
    (writeU32 bo 1 ++
    (writeU8 TypeTag.char.val ++
    (writeU8 1 ++
    (writeU32 bo 1 ++
    (strMainHeaderCl ++
    (writeU8 TypeTag.f64.val ++
    (writeU8 1 ++
    (writeU32 bo 1 ++
    (writeF64 bo (floatBitsOfNat 2) ++
    (writeU8 TypeTag.char.val ++
    (writeU8 1 ++
    (writeU32 bo 1 ++
    (h.full_filename ++
    (writeU8 TypeTag.char.val ++
    (writeU8 1 ++
    (writeU32 bo 1 ++
    (h.title ++
    (writeU8 TypeTag.f64.val ++
    (writeU8 1 ++
    (writeU32 bo 1 ++
    (writeF64 bo (floatBitsOfNat h.nfiles) ++
    (writeU8 TypeTag.char.val ++
    (writeU8 1 ++
    (writeU32 bo 1 ++
    (h.creation_date.isoformatSeconds ++
    (writeU8 TypeTag.logical.val ++
    (writeU8 1 ++
    (writeU32 bo 1 ++
    (writeLogical false)))))))))))))))))))))))))))))))))))))))))))))))))

theorem mainHeaderPayload_eq (bo : Byteorder) (h : SqwMainHeader) :
    mainHeaderPayload bo h = .ok (mainHeaderPayloadBytes bo h) := by
  simp [mainHeaderPayload, writeArrayVal, writeTagData, writeStructData,
    writeSingleStruct, writeCellData, writeCharData, writeF64Data,
    writeLogicalData, serializeToIR, SqwMainHeader.serializeToDict,
    IRStruct.toObjectArray, serializeField, IRObject.ty, writeChars,
    mainHeaderPayloadBytes]
  rfl

theorem mainHeaderPayloadBytes_length (bo : Byteorder) (h : SqwMainHeader) :
    (mainHeaderPayloadBytes bo h).length =
      232 + h.full_filename.length + h.title.length := by
  simp [mainHeaderPayloadBytes, writeU8, writeU32, writeF64, writeLogical,
    intToBytes_length, isoformatSeconds_length, strSerialName, strVersion,
    strFullFilename, strTitle, strNfiles, strCreationDate,
    strCreationDateDefinedPrivately, strMainHeaderCl]
  omega

theorem serializeBAT_singleton (bo : Byteorder) (size : Nat) :
    serializeBlockAllocationTable bo
        [((([], strMainHeader) : DataBlockName),
          ⟨.regular, ([], strMainHeader), 0, size, false⟩)] 26 =
      (writeU32 bo 49 ++ (writeU32 bo 1 ++ (writeCharArray bo strDataBlock ++
        (writeCharArray bo [] ++ (writeCharArray bo strMainHeader ++
          (writeU64 bo 83 ++ (writeU32 bo size ++ writeU32 bo 0)))))),
       [(([], strMainHeader),
         ⟨.regular, ([], strMainHeader), 83, size, false⟩)]) := by
  have hw0 : (WBuf.mk [] 0).write (writeU32 bo 0) = ⟨writeU32 bo 0, 4⟩ := by
    rw [WBuf.write_append _ _ rfl]
    simp [writeU32, intToBytes_length]
  have hw1 : (WBuf.mk (writeU32 bo 0) 4).write (writeU32 bo 1) =
      ⟨writeU32 bo 0 ++ writeU32 bo 1, 8⟩ := by
    rw [WBuf.write_append _ _ (by simp [writeU32, intToBytes_length])]
    simp [writeU32, intToBytes_length]
  have h8 : (8 : Nat) = (writeU32 bo 0 ++ writeU32 bo 1).length := by
    simp [writeU32, intToBytes_length]
  have hnb : descriptorNBytes ⟨.regular, ([], strMainHeader), 0, size, false⟩ = 49 := by
    simp [descriptorNBytes, SqwDataBlockType.value, strDataBlock, strMainHeader]
  simp only [serializeBlockAllocationTable, WBuf.position, List.length_cons,
    List.length_nil]
  rw [hw0, hw1]
  simp only [writeDescriptorsLoop]
  rw [writeDataBlockDescriptor_spec bo ⟨writeU32 bo 0 ++ writeU32 bo 1, 8⟩
    ⟨.regular, ([], strMainHeader), 0, size, false⟩ h8]
  simp only [hnb]
  have hoffv : (8 : Nat) + 12 +
      (SqwDataBlockType.value SqwDataBlockType.regular).length +
      ([] : Str).length + strMainHeader.length = 41 := by
    simp [SqwDataBlockType.value, strDataBlock, strMainHeader]
  simp only [SqwDataBlockType.value] at hoffv ⊢
  rw [hoffv]
  simp only [patchPositionsLoop]
  have hlook : (pyLookup (pyDictInsert ([] : List (DataBlockName × Nat))
      ([], strMainHeader) 41) ([], strMainHeader)).getD 0 = 41 := by decide
  rw [hlook]
  set D := dataBlockDescriptorBytes bo ⟨.regular, ([], strMainHeader), 0, size, false⟩
    with hD
  have hsplit : (writeU32 bo 0 ++ writeU32 bo 1) ++ D =
      (writeU32 bo 0 ++ writeU32 bo 1 ++ writeCharArray bo strDataBlock ++
        writeCharArray bo [] ++ writeCharArray bo strMainHeader) ++
      (writeU64 bo 0 ++ (writeU32 bo size ++ writeU32 bo 0)) := by
    rw [hD]
    simp [dataBlockDescriptorBytes, SqwDataBlockType.value, List.append_assoc]
  have hPlen : (writeU32 bo 0 ++ writeU32 bo 1 ++ writeCharArray bo strDataBlock ++
      writeCharArray bo [] ++ writeCharArray bo strMainHeader).length = 41 := by
    simp [writeU32, writeCharArray_length, intToBytes_length, strDataBlock,
      strMainHeader]
  have hpatch : ((WBuf.mk ((writeU32 bo 0 ++ writeU32 bo 1) ++ D) (8 + 49)).seek 41).write
      (writeU64 bo 83) =
      ⟨(writeU32 bo 0 ++ writeU32 bo 1 ++ writeCharArray bo strDataBlock ++
        writeCharArray bo [] ++ writeCharArray bo strMainHeader) ++
        (writeU64 bo 83 ++ (writeU32 bo size ++ writeU32 bo 0)), 49⟩ := by
    simp only [WBuf.seek, WBuf.write]
    have hlen : ((writeU32 bo 0 ++ writeU32 bo 1) ++ D).length = 57 := by
      rw [hsplit]
      simp only [List.length_append, hPlen]
      simp [writeU64, writeU32, intToBytes_length]
    have htake : (((writeU32 bo 0 ++ writeU32 bo 1) ++ D).take 41) =
        writeU32 bo 0 ++ writeU32 bo 1 ++ writeCharArray bo strDataBlock ++
          writeCharArray bo [] ++ writeCharArray bo strMainHeader := by
      rw [hsplit]
      rw [List.take_append_of_le_length (by rw [hPlen])]
      rw [List.take_of_length_le (by rw [hPlen])]
    have hdrop : (((writeU32 bo 0 ++ writeU32 bo 1) ++ D).drop
        (41 + (writeU64 bo 83).length)) = writeU32 bo size ++ writeU32 bo 0 := by
      rw [hsplit]
      have h49 : 41 + (writeU64 bo 83).length =
          ((writeU32 bo 0 ++ writeU32 bo 1 ++ writeCharArray bo strDataBlock ++
            writeCharArray bo [] ++ writeCharArray bo strMainHeader) ++
              writeU64 bo 0).length := by
        simp [writeU64, writeU32, writeCharArray_length, intToBytes_length,
          strDataBlock, strMainHeader]
      rw [h49, show (writeU32 bo 0 ++ writeU32 bo 1 ++ writeCharArray bo strDataBlock ++
          writeCharArray bo [] ++ writeCharArray bo strMainHeader) ++
            (writeU64 bo 0 ++ (writeU32 bo size ++ writeU32 bo 0)) =
          ((writeU32 bo 0 ++ writeU32 bo 1 ++ writeCharArray bo strDataBlock ++
            writeCharArray bo [] ++ writeCharArray bo strMainHeader) ++
              writeU64 bo 0) ++ (writeU32 bo size ++ writeU32 bo 0)
        from by simp [List.append_assoc]]
      exact List.drop_left _ _
    rw [htake, hdrop]
    have hrep : (41 : Nat) - ((writeU32 bo 0 ++ writeU32 bo 1) ++ D).length = 0 := by
      rw [hlen]
    rw [hrep]
    simp [writeU64, intToBytes_length]
  rw [show (8 : Nat) + 49 = 57 from rfl] at hpatch
  rw [hpatch]
  have hfinal : ((WBuf.mk ((writeU32 bo 0 ++ writeU32 bo 1 ++
      writeCharArray bo strDataBlock ++ writeCharArray bo [] ++
      writeCharArray bo strMainHeader) ++
      (writeU64 bo 83 ++ (writeU32 bo size ++ writeU32 bo 0))) 49).seek 0).write
        (writeU32 bo (57 - 8)) =
      ⟨writeU32 bo 49 ++ (writeU32 bo 1 ++ (writeCharArray bo strDataBlock ++
        (writeCharArray bo [] ++ (writeCharArray bo strMainHeader ++
          (writeU64 bo 83 ++ (writeU32 bo size ++ writeU32 bo 0)))))), 4⟩ := by
    have hsk : ((WBuf.mk ((writeU32 bo 0 ++ writeU32 bo 1 ++
        writeCharArray bo strDataBlock ++ writeCharArray bo [] ++
        writeCharArray bo strMainHeader) ++
        (writeU64 bo 83 ++ (writeU32 bo size ++ writeU32 bo 0))) 49).seek 0).write
          (writeU32 bo (57 - 8)) =
        ⟨writeU32 bo (57 - 8) ++
          (((writeU32 bo 0 ++ writeU32 bo 1 ++ writeCharArray bo strDataBlock ++
            writeCharArray bo [] ++ writeCharArray bo strMainHeader) ++
            (writeU64 bo 83 ++ (writeU32 bo size ++ writeU32 bo 0))).drop
              (writeU32 bo (57 - 8)).length), 0 + (writeU32 bo (57 - 8)).length⟩ := by
      simp [WBuf.seek, WBuf.write]
    rw [hsk]
    have hd4 : (((writeU32 bo 0 ++ writeU32 bo 1 ++ writeCharArray bo strDataBlock ++
        writeCharArray bo [] ++ writeCharArray bo strMainHeader) ++
        (writeU64 bo 83 ++ (writeU32 bo size ++ writeU32 bo 0))).drop
          (writeU32 bo (57 - 8)).length) =
        writeU32 bo 1 ++ (writeCharArray bo strDataBlock ++
          (writeCharArray bo [] ++ (writeCharArray bo strMainHeader ++
            (writeU64 bo 83 ++ (writeU32 bo size ++ writeU32 bo 0))))) := by
      rw [show ((writeU32 bo 0 ++ writeU32 bo 1 ++ writeCharArray bo strDataBlock ++
          writeCharArray bo [] ++ writeCharArray bo strMainHeader) ++
          (writeU64 bo 83 ++ (writeU32 bo size ++ writeU32 bo 0))) =
        writeU32 bo 0 ++ (writeU32 bo 1 ++ (writeCharArray bo strDataBlock ++
          (writeCharArray bo [] ++ (writeCharArray bo strMainHeader ++
            (writeU64 bo 83 ++ (writeU32 bo size ++ writeU32 bo 0))))))
        from by simp [List.append_assoc]]
      rw [show (writeU32 bo (57 - 8)).length = (writeU32 bo 0).length from by
        simp [writeU32, intToBytes_length]]
      exact List.drop_left _ _
    rw [hd4]
    simp [writeU32, intToBytes_length]
  rw [hfinal]
  simp [pyDictInsert]

/-- The function `_write_file_header` (`src/sqomega/_build.py` lines 252-257):
program name as a char array, program version as f64, file type and dimension
count as u32 (write primitives spec-modelled, §4.A). -/
def writeFileHeader (bo : Byteorder) (fh : SqwFileHeader) : List Nat :=
  writeCharArray bo fh.prog_name ++
    (writeF64 bo fh.prog_version ++
      (writeU32 bo fh.sqw_type.val ++ writeU32 bo fh.n_dims))

theorem writeFileHeader_length (bo : Byteorder) :
    (writeFileHeader bo ⟨strHorace, floatBitsOfNat 4, .SQW, 0⟩).length = 26 := by
  simp [writeFileHeader, writeCharArray_length, writeF64, writeU32,
    intToBytes_length, strHorace, SqwFileType.val]

/-- The method `SqwBuilder.create` (`src/sqomega/_build.py` lines 82-115) for
the bare builder, whose only registered data block is the main header
(`__init__`, lines 69-78; it is registered first in every configuration, so
its prepare call is the first one `create` makes in all of them): write the
file header, run the in-source `_prepare_data_blocks` step (lines 195-200,
here `prepareDataBlocksSrc`), serialize the main-header block into its own
buffer (`_serialize_data_blocks`, lines 156-181), lay the block allocation
table out at the file-header boundary and emit header ++ BAT ++ block
payload.  `full_filename` is `os.fspath(self._stored_path or "")` and `now`
is the current UTC time. -/
def createFile (bo : Byteorder) (title full_filename : Str)
    (now : PyDatetime) :
    Except String (List Nat × SqwFileHeader ×
      List (DataBlockName × SqwDataBlockDescriptor)) :=
  let fh : SqwFileHeader := ⟨strHorace, floatBitsOfNat 4, .SQW, 0⟩
  let headerBytes := writeFileHeader bo fh
  let main_header : SqwMainHeader :=
    ⟨full_filename, title, 0, ⟨1, 1, 1, 0, 0, 0⟩⟩
  (prepareDataBlocksSrc main_header now).bind fun prepared =>
    (mainHeaderPayload bo prepared).map fun payload =>
      let descriptors : List (DataBlockName × SqwDataBlockDescriptor) :=
        [((([], strMainHeader) : DataBlockName),
          ⟨.regular, ([], strMainHeader), 0, payload.length, false⟩)]
      let bat := serializeBlockAllocationTable bo descriptors headerBytes.length
      (headerBytes ++ (bat.1 ++ payload), fh, bat.2)

/-- The block allocation table bytes emitted for the bare builder (normal
form of `serializeBlockAllocationTable` at `bat_offset = 26`): `bat_size`,
block count, then the single main-header descriptor at position 83. -/
def batBytes (bo : Byteorder) (sz : Nat) : List Nat :=
  writeU32 bo 49 ++ (writeU32 bo 1 ++ (writeCharArray bo strDataBlock ++
    (writeCharArray bo [] ++ (writeCharArray bo strMainHeader ++
      (writeU64 bo 83 ++ (writeU32 bo sz ++ writeU32 bo 0))))))

/-- A bare-builder file image: the file header, the singleton block
allocation table at offset 26, and a main-header block payload `P`
(`sqwOpen_created` below shows `Sqw.open` reads it back exactly). -/
def createdBytes (bo : Byteorder) (P : List Nat) : List Nat :=
  writeFileHeader bo ⟨strHorace, floatBitsOfNat 4, .SQW, 0⟩ ++
    (batBytes bo P.length ++ P)

theorem deduceByteorder_u32six (bo : Byteorder) (B : List Nat) :
    deduceByteorder ⟨writeU32 bo 6 ++ B, 0⟩ none =
      (bo, ⟨writeU32 bo 6 ++ B, 0⟩) := by
  cases bo
  · show deduceByteorder ⟨6 :: 0 :: 0 :: 0 :: B, 0⟩ none =
      (.little, ⟨6 :: 0 :: 0 :: 0 :: B, 0⟩)
    simp only [deduceByteorder, RStream.read, RStream.seek, RStream.tell]
    rw [show ((6 :: 0 :: 0 :: 0 :: B).drop 0).take 4 = [6, 0, 0, 0] from rfl]
    rw [if_pos (by decide)]
  · show deduceByteorder ⟨0 :: 0 :: 0 :: 6 :: B, 0⟩ none =
      (.big, ⟨0 :: 0 :: 0 :: 6 :: B, 0⟩)
    simp only [deduceByteorder, RStream.read, RStream.seek, RStream.tell]
    rw [show ((0 :: 0 :: 0 :: 6 :: B).drop 0).take 4 = [0, 0, 0, 6] from rfl]
    rw [if_neg (by decide)]

theorem sqwOpen_created (bo : Byteorder) (P : List Nat)
    (hsz : P.length < 2 ^ 32) :
    sqwOpen (createdBytes bo P) none none =
      .ok ⟨⟨⟨(((writeCharArray bo strHorace ++ writeF64 bo (floatBitsOfNat 4)) ++
          writeU32 bo 1) ++ writeU32 bo 0) ++
          (writeU32 bo 49 ++ (writeU32 bo 1 ++ (dataBlockDescriptorBytes bo
            ⟨.regular, ([], strMainHeader), 83, P.length, false⟩ ++ P))), 83⟩,
          bo, none⟩,
        ⟨strHorace, floatBitsOfNat 4, .SQW, 0⟩,
        [((([], strMainHeader) : DataBlockName),
          ⟨.regular, ([], strMainHeader), 83, P.length, false⟩)],
        []⟩ := by
  simp only [sqwOpen]
  rw [show createdBytes bo P =
      writeU32 bo 6 ++ (writeChars strHorace ++ (writeF64 bo (floatBitsOfNat 4) ++
        (writeU32 bo 1 ++ (writeU32 bo 0 ++ (batBytes bo P.length ++ P)))))
    from by
      simp [createdBytes, writeFileHeader, writeCharArray, writeChars, strHorace,
        SqwFileType.val, List.append_assoc]]
  simp only [deduceByteorder_u32six]
  rw [show writeU32 bo 6 ++ (writeChars strHorace ++ (writeF64 bo (floatBitsOfNat 4) ++
      (writeU32 bo 1 ++ (writeU32 bo 0 ++ (batBytes bo P.length ++ P))))) =
    writeCharArray bo strHorace ++ (writeF64 bo (floatBitsOfNat 4) ++
      (writeU32 bo 1 ++ (writeU32 bo 0 ++ (batBytes bo P.length ++ P))))
    from by simp [writeCharArray, writeChars, strHorace, List.append_assoc]]
  simp only [readFileHeader]
  have hca := read_char_array_at bo none ([] : List Nat)
    (writeF64 bo (floatBitsOfNat 4) ++
      (writeU32 bo 1 ++ (writeU32 bo 0 ++ (batBytes bo P.length ++ P))))
    strHorace (by decide) (by decide)
  simp only [List.nil_append, List.length_nil] at hca
  rw [show (0 : Nat) + 4 + List.length strHorace = 10 from rfl] at hca
  simp only [hca]
  have hf := read_f64_at bo none (writeCharArray bo strHorace)
    (writeU32 bo 1 ++ (writeU32 bo 0 ++ (batBytes bo P.length ++ P)))
    (floatBitsOfNat 4)
  rw [show (writeCharArray bo strHorace).length = 10 from by
    simp [writeCharArray_length, strHorace]] at hf
  rw [show (10 : Nat) + 8 = 18 from rfl] at hf
  rw [Nat.mod_eq_of_lt (show floatBitsOfNat 4 < 2 ^ 64 by decide)] at hf
  simp only [hf]
  rw [show writeCharArray bo strHorace ++ (writeF64 bo (floatBitsOfNat 4) ++
      (writeU32 bo 1 ++ (writeU32 bo 0 ++ (batBytes bo P.length ++ P)))) =
    (writeCharArray bo strHorace ++ writeF64 bo (floatBitsOfNat 4)) ++
      (writeU32 bo 1 ++ (writeU32 bo 0 ++ (batBytes bo P.length ++ P)))
    from by simp [List.append_assoc]]
  have hu1 := read_u32_at bo none
    (writeCharArray bo strHorace ++ writeF64 bo (floatBitsOfNat 4))
    (writeU32 bo 0 ++ (batBytes bo P.length ++ P)) 1
  rw [show (writeCharArray bo strHorace ++ writeF64 bo (floatBitsOfNat 4)).length = 18
    from by simp [writeCharArray_length, strHorace, writeF64, intToBytes_length]] at hu1
  rw [show (18 : Nat) + 4 = 22 from rfl] at hu1
  rw [Nat.mod_eq_of_lt (show (1 : Nat) < 2 ^ 32 by decide)] at hu1
  simp only [hu1]
  simp only [show SqwFileType.ofVal 1 = some SqwFileType.SQW from rfl]
  rw [show (writeCharArray bo strHorace ++ writeF64 bo (floatBitsOfNat 4)) ++
      (writeU32 bo 1 ++ (writeU32 bo 0 ++ (batBytes bo P.length ++ P))) =
    ((writeCharArray bo strHorace ++ writeF64 bo (floatBitsOfNat 4)) ++ writeU32 bo 1) ++
      (writeU32 bo 0 ++ (batBytes bo P.length ++ P))
    from by simp [List.append_assoc]]
  have hu2 := read_u32_at bo none
    ((writeCharArray bo strHorace ++ writeF64 bo (floatBitsOfNat 4)) ++ writeU32 bo 1)
    (batBytes bo P.length ++ P) 0
  rw [show ((writeCharArray bo strHorace ++ writeF64 bo (floatBitsOfNat 4)) ++
      writeU32 bo 1).length = 22 from by
    simp [writeCharArray_length, strHorace, writeF64, writeU32, intToBytes_length]] at hu2
  rw [show (22 : Nat) + 4 = 26 from rfl] at hu2
  rw [Nat.zero_mod] at hu2
  simp only [hu2]
  rw [show (((writeCharArray bo strHorace ++ writeF64 bo (floatBitsOfNat 4)) ++
      writeU32 bo 1)) ++ (writeU32 bo 0 ++ (batBytes bo P.length ++ P)) =
    ((((writeCharArray bo strHorace ++ writeF64 bo (floatBitsOfNat 4)) ++
      writeU32 bo 1) ++ writeU32 bo 0)) ++
      (writeU32 bo 49 ++ (writeU32 bo 1 ++ (dataBlockDescriptorBytes bo
        ⟨.regular, ([], strMainHeader), 83, P.length, false⟩ ++ P)))
    from by
      simp [batBytes, dataBlockDescriptorBytes, SqwDataBlockType.value,
        List.append_assoc]]
  have hbat := readBlockAllocationTable_at bo none
    ((((writeCharArray bo strHorace ++ writeF64 bo (floatBitsOfNat 4)) ++
      writeU32 bo 1) ++ writeU32 bo 0)) P 49
    [⟨.regular, ([], strMainHeader), 83, P.length, false⟩]
    (by
      intro d hd
      simp only [List.mem_singleton] at hd
      subst hd
      exact ⟨(by decide : utf8Valid ([] : Str) = true),
        (by decide : utf8Valid strMainHeader = true),
        (by decide : ([] : Str).length < 2 ^ 32),
        (by decide : strMainHeader.length < 2 ^ 32),
        (by decide : (83 : Nat) < 2 ^ 64), hsz⟩)
    (by norm_num)
  simp only [List.map_cons, List.map_nil, List.flatten_cons, List.flatten_nil,
    List.append_nil, List.length_cons, List.length_nil, Nat.zero_add] at hbat
  rw [show ((((writeCharArray bo strHorace ++ writeF64 bo (floatBitsOfNat 4)) ++
      writeU32 bo 1) ++ writeU32 bo 0)).length = 26 from by
    simp [writeCharArray_length, strHorace, writeF64, writeU32,
      intToBytes_length]] at hbat
  rw [show [descriptorNBytes (⟨.regular, ([], strMainHeader), 83, P.length, false⟩ :
      SqwDataBlockDescriptor)].sum = 49 from by
    simp [descriptorNBytes, SqwDataBlockType.value, strDataBlock,
      strMainHeader]] at hbat
  rw [show (26 : Nat) + 8 + 49 = 83 from rfl] at hbat
  rw [show pyDictOf [((([], strMainHeader) : DataBlockName),
      (⟨.regular, ([], strMainHeader), 83, P.length, false⟩ :
        SqwDataBlockDescriptor))] =
    [((([], strMainHeader) : DataBlockName),
      (⟨.regular, ([], strMainHeader), 83, P.length, false⟩ :
        SqwDataBlockDescriptor))] from by simp [pyDictOf, pyDictInsert]] at hbat
  simp only [hbat]
  simp

/-- C1 (code bug): `create()` writes no file at all, so the claimed round
trip never gets a file to act on.  `SqwBuilder.create` runs
`_prepare_data_blocks` before serializing anything, and the in-source
`prepare_for_serialization` call raises `TypeError` on the always-registered
main-header block (the signature mismatch recorded as C7), so `create` fails
for every byte order, title, filename and creation time before emitting a
single byte.  The main header is the first block registered in every builder
configuration, so no configuration fares better.  The read-back side is in
place: `sqwOpen_created` shows `Sqw.open` reads the intended
header ++ BAT ++ payload image back exactly. -/
theorem create_never_writes (bo : Byteorder) (title full_filename : Str)
    (now : PyDatetime) :
    createFile bo title full_filename now =
      .error "TypeError: prepare_for_serialization() got an unexpected keyword argument" :=
  rfl

end Sqomega
